import Mathlib

/- Shallow embedding of ssg/build_yaml.py: the XCCDF-shorthand entity model
   (Profile, Value, Benchmark, Group, Rule), descriptor parsing with
   closed-schema validation, XML rendering, and the directory-tree assembler.

   External collaborators (the YAML loading layer, the CCE checker, the
   platform/product CPE tables, filesystem and low-level XML primitives) are
   modelled at their interface boundary: parsed YAML documents are passed in
   as values, the CCE checker and the CPE tables are parameters, and elements
   whose textual content the source re-parses as markup hold that content
   verbatim.

   YAML shapes: fields on which the source performs type-dependent operations
   at parse or render time are modelled over the shapes those operations
   accept; shapes that would fault in the source's Python runtime (TypeError,
   AttributeError, IndexError, unpacking errors) are mapped to errors. -/

namespace SSG

/-- A parsed YAML scalar or collection, as produced by the external
    loading/macro-expansion layer.  Keys of mappings are strings. -/
inductive YamlValue where
  | str (s : String)
  | int (n : Int)
  | null
  | list (xs : List YamlValue)
  | map (m : List (String × YamlValue))

/-- A parsed key-value document (a Python dict with string keys). -/
abbrev Doc := List (String × YamlValue)

/-- First value stored under a key, if any (Python `d[k]` / `k in d`). -/
def lookupKey : Doc → String → Option YamlValue
  | [], _ => none
  | (k', v) :: rest, k => if k' = k then some v else lookupKey rest k

/-- Removal of a key from a document (Python `del d[k]`; documents are
    dicts, so a key occurs at most once and filtering is equivalent). -/
def removeKey (doc : Doc) (k : String) : Doc :=
  doc.filter (fun p => p.1 ≠ k)

/-- Python `d.pop(k, default)`: the stored value (or the default) together
    with the document without the key. -/
def popKey (doc : Doc) (k : String) (dflt : YamlValue) : YamlValue × Doc :=
  ((lookupKey doc k).getD dflt, removeKey doc k)

/-- Modelled from the spec: the external `required_key` utility yields the
    value of a required field and fails with a missing-key error when the
    field is absent. -/
def required_key (doc : Doc) (key : String) : Except String YamlValue :=
  match lookupKey doc key with
  | some v => .ok v
  | none => .error ("Missing required key: " ++ key)

/-- Python truthiness of a parsed YAML value. -/
def pyTruthy : YamlValue → Bool
  | .str s => !(s == "")
  | .int n => !(n == 0)
  | .null => false
  | .list xs => !xs.isEmpty
  | .map m => !m.isEmpty

/-- Python str() of a parsed YAML value.  Scalars are rendered exactly;
    composite values are abbreviated (no claim inspects the str() of a
    composite value, the source only applies it to scalars). -/
def pyStr : YamlValue → String
  | .str s => s
  | .int n => toString n
  | .null => "None"
  | .list _ => "[...]"
  | .map _ => "{...}"

/-- Test that a value is a given string (Python `v == "s"` for a str literal). -/
def isStrEq (v : YamlValue) (s : String) : Bool :=
  match v with
  | .str t => t == s
  | _ => false

/-- Split of a character list at every occurrence of a separator (the
    semantics of Python `str.split(sep)` for a one-character separator). -/
def splitChars (sep : Char) : List Char → List (List Char)
  | [] => [[]]
  | c :: rest =>
    if c = sep then [] :: splitChars sep rest
    else
      match splitChars sep rest with
      | [] => [[c]]
      | h :: t => (c :: h) :: t

/-- Python `s.split(sep)` for a one-character separator. -/
def pySplit (s : String) (sep : Char) : List String :=
  (splitChars sep s.data).map String.mk

/-- Joining with a one-character separator (the inverse of pySplit, used to
    rebuild the remainder after a bounded split). -/
def joinChar (sep : Char) : List String → String
  | [] => ""
  | [x] => x
  | x :: rest => x ++ String.mk [sep] ++ joinChar sep rest

/-- Python `c in s` for a one-character needle: membership of the character
    in the string. -/
def pyInChar (c : Char) (s : String) : Bool :=
  s.data.contains c

/-- os.path.basename: the part of the path after the last slash. -/
def basename (p : String) : String :=
  (pySplit p '/').getLastD p

/-- os.path.dirname: the part of the path before the last slash. -/
def dirname (p : String) : String :=
  match p.data.reverse.dropWhile (fun c => c ≠ '/') with
  | [] => ""
  | _ :: tail => String.mk tail.reverse

/-- os.path.splitext on a bare file name: split at the last dot, except that
    leading dots never start an extension. -/
def splitext (s : String) : String × String :=
  let cs := s.data
  let lead := (cs.takeWhile (fun c => c = '.')).length
  let rest := cs.drop lead
  let extLen := (rest.reverse.takeWhile (fun c => c ≠ '.')).length
  if extLen = rest.length then (s, "")
  else
    let baseLen := lead + (rest.length - extLen - 1)
    (String.mk (cs.take baseLen), String.mk (cs.drop baseLen))

/-- Python `s.split(sep, 1)`: split at the first occurrence of the
    separator. -/
def splitOnce (s : String) (sep : Char) : String × String :=
  match pySplit s sep with
  | [] => (s, "")
  | x :: rest => (x, joinChar sep rest)

/-- The message of the closed-schema error: leftover keys after extraction
    abort parsing, naming the offending file and the remaining document. -/
def unparsedMsg (yaml_file : String) (doc : Doc) : String :=
  "Unparsed YAML data in '" ++ yaml_file ++ "'.\n\n" ++
    String.intercalate ", " (doc.map (fun p => p.1))

/-- An XML element: tag, attributes in insertion order, textual content, and
    child elements in document order. -/
inductive Xml where
  | elem (tag : String) (attrs : List (String × String)) (text : String) (children : List Xml)

def Xml.tag : Xml → String
  | .elem t _ _ _ => t

def Xml.attrs : Xml → List (String × String)
  | .elem _ a _ _ => a

def Xml.text : Xml → String
  | .elem _ _ s _ => s

def Xml.children : Xml → List Xml
  | .elem _ _ _ c => c

/-- ElementTree `.set`: replace the value of an existing attribute in place,
    or append a new attribute at the end.  Also models insertion into the
    id-keyed entity maps (Python dicts: insertion-ordered, overwrite keeps
    the original position). -/
def assocSet {α : Type} : List (String × α) → String → α → List (String × α)
  | [], k, v => [(k, v)]
  | (k', v') :: rest, k, v =>
      if k' = k then (k, v) :: rest else (k', v') :: assocSet rest k v

/-- Attribute lookup on an element. -/
def Xml.getAttr (x : Xml) (k : String) : Option String :=
  (x.attrs.find? (fun p => p.1 == k)).map (fun p => p.2)

/-- Models add_sub_element: the source wraps the data in open/close tags and
    re-parses it through the external XML layer so that markup inside the
    data survives as real child elements; here the raw string is held
    verbatim as the element's content. -/
def add_sub_element_child (tag data : String) : Xml :=
  .elem tag [] data []

/-- One element of a warnings list: a single-entry mapping category -> text,
    rendered from its first entry (Python `list(d.values())[0]` /
    `list(d.keys())[0]`; an empty mapping faults with IndexError). -/
def warningElem : YamlValue → Except String Xml
  | .map ((k, v) :: _) => .ok (Xml.elem "warning" [("category", k)] (pyStr v) [])
  | .map [] => .error "IndexError: list index out of range"
  | _ => .error "AttributeError: warning entry is not a mapping"

/-- add_warning_elements: one warning element per list entry, in order. -/
def warningElems : YamlValue → Except String (List Xml)
  | .list xs => xs.mapM warningElem
  | _ => .error "TypeError: warnings is not a list"

/-- Represents an XCCDF profile (class Profile). -/
structure Profile where
  id_ : String
  title : YamlValue
  description : YamlValue
  extends_ : YamlValue
  selections : YamlValue

/-- The keys Profile.from_yaml extracts, in extraction order. -/
def Profile.recognizedKeys : List String :=
  ["title", "description", "extends", "selections"]

/-- The keys Profile.from_yaml requires. -/
def Profile.requiredKeys : List String :=
  ["title", "description", "selections"]

/-- Profile.from_yaml: the id is the descriptor file name without its
    extension; title, description and selections are required, extends is
    optional; any leftover key is a closed-schema error.  A document the
    loading layer returned as None yields no profile. -/
def Profile.from_yaml (yaml_file : String) (contents : Option Doc) :
    Except String (Option Profile) :=
  match contents with
  | none => .ok none
  | some doc0 =>
    match required_key doc0 "title" with
    | .error e => .error e
    | .ok title =>
    let doc1 := removeKey doc0 "title"
    match required_key doc1 "description" with
    | .error e => .error e
    | .ok description =>
    let doc2 := removeKey doc1 "description"
    let (extends_, doc3) := popKey doc2 "extends" .null
    match required_key doc3 "selections" with
    | .error e => .error e
    | .ok selections =>
    let doc4 := removeKey doc3 "selections"
    if doc4.isEmpty then
      .ok (some { id_ := (splitext (basename yaml_file)).1,
                  title := title, description := description,
                  extends_ := extends_, selections := selections })
    else .error (unparsedMsg yaml_file doc4)

/-- One directive element per Profile selection string: a leading "!" gives
    an unselect directive for the remainder, otherwise a string containing
    "=" is split at its first "=" into a refine-value directive, and any
    other string gives a select directive. -/
def selectionDirective (selection : String) : Xml :=
  if selection.startsWith "!" then
    .elem "select" [("idref", selection.drop 1), ("selected", "false")] "" []
  else if pyInChar '=' selection then
    .elem "refine-value"
      [("idref", (splitOnce selection '=').1),
       ("selector", (splitOnce selection '=').2)] "" []
  else
    .elem "select" [("idref", selection), ("selected", "true")] "" []

/-- The selection loop of Profile.to_xml_element: each selection must be a
    string (the source would fault on startswith otherwise). -/
def selectionsElems : YamlValue → Except String (List Xml)
  | .list xs => xs.mapM (fun x =>
      match x with
      | .str s => .ok (selectionDirective s)
      | _ => .error "AttributeError: selection is not a string")
  | _ => .error "TypeError: selections is not a list"

/-- The attributes of a rendered Profile: id, then extends when truthy. -/
def profileAttrs (p : Profile) : List (String × String) :=
  let a := [("id", p.id_)]
  if pyTruthy p.extends_ then assocSet a "extends" (pyStr p.extends_) else a

/-- Profile.to_xml_element: id/extends attributes, an overriding title and
    description, then one directive per selection in source order. -/
def Profile.to_xml_element (p : Profile) : Except String Xml :=
  match selectionsElems p.selections with
  | .error e => .error e
  | .ok dirs =>
    .ok (.elem "Profile" (profileAttrs p) ""
      ([Xml.elem "title" [("override", "true")] (pyStr p.title) [],
        Xml.elem "description" [("override", "true")] (pyStr p.description) []]
       ++ dirs))

/-- Represents an XCCDF Value (class Value). -/
structure Value where
  id_ : String
  title : YamlValue
  description : YamlValue
  type_ : YamlValue
  operator : String
  interactive : Bool
  options : YamlValue
  warnings : YamlValue

/-- The seven enumerated operators of Value.from_yaml. -/
def possible_operators : List String :=
  ["equals", "not equal", "greater than", "less than",
   "greater than or equal", "less than or equal", "pattern match"]

/-- The message of the invalid-operator error. -/
def invalidOperatorMsg (op : YamlValue) (yaml_file : String) : String :=
  "Found an invalid operator value '" ++ pyStr op ++ "' in '" ++ yaml_file ++
    "'. Expected one of: " ++ String.intercalate ", " possible_operators

/-- The operator check of Value.from_yaml: any value outside the seven
    enumerated operator strings (a non-string value is never in the list)
    is a hard error. -/
def checkOperator (yaml_file : String) (v : YamlValue) : Except String String :=
  match v with
  | .str s =>
      if possible_operators.contains s then .ok s
      else .error (invalidOperatorMsg v yaml_file)
  | _ => .error (invalidOperatorMsg v yaml_file)

/-- Python len() of a parsed YAML value, as applied to the elements of a
    warnings list (dicts count keys, strings count characters; unsized
    values fault with TypeError). -/
def pyLenOne : YamlValue → Bool
  | .map m => m.length == 1
  | .str s => s.length == 1
  | .list l => l.length == 1
  | _ => false

/-- The warnings-shape check shared by Value, Group and Rule parsing: each
    element of the warnings list must have exactly one key/value pair. -/
def checkWarnings (w : YamlValue) : Except String Unit :=
  match w with
  | .list xs =>
      if xs.all pyLenOne then .ok ()
      else .error "Only one key/value pair should exist for each dictionary"
  | _ => .error "TypeError: warnings is not iterable"

/-- Python `s.lower()` on a popped field: faults unless the value is a
    string. -/
def pyLower : YamlValue → Except String String
  | .str s => .ok s.toLower
  | _ => .error "AttributeError: lower"

/-- Python `s.strip()`: the string without leading and trailing
    whitespace. -/
def pyStrip (s : String) : String :=
  String.mk (((s.data.dropWhile Char.isWhitespace).reverse.dropWhile
    Char.isWhitespace).reverse)

/-- The keys Value.from_yaml extracts, in extraction order. -/
def Value.recognizedKeys : List String :=
  ["title", "description", "type", "operator", "interactive", "options", "warnings"]

/-- The keys Value.from_yaml requires. -/
def Value.requiredKeys : List String :=
  ["title", "description", "type", "options"]

/-- Value.from_yaml: the id is the descriptor file name without extension;
    title, description, type and options are required; operator defaults to
    "equals" and must be one of the seven enumerated operators; interactive
    defaults to "false" and is compared case-insensitively to "true";
    warnings entries must be single-entry mappings; any leftover key is a
    closed-schema error. -/
def Value.from_yaml (yaml_file : String) (contents : Option Doc) :
    Except String (Option Value) :=
  match contents with
  | none => .ok none
  | some doc0 =>
    match required_key doc0 "title" with
    | .error e => .error e
    | .ok title =>
    let doc1 := removeKey doc0 "title"
    match required_key doc1 "description" with
    | .error e => .error e
    | .ok description =>
    let doc2 := removeKey doc1 "description"
    match required_key doc2 "type" with
    | .error e => .error e
    | .ok type_ =>
    let doc3 := removeKey doc2 "type"
    let (operatorV, doc4) := popKey doc3 "operator" (.str "equals")
    match checkOperator yaml_file operatorV with
    | .error e => .error e
    | .ok operator =>
    let (interactiveV, doc5) := popKey doc4 "interactive" (.str "false")
    match pyLower interactiveV with
    | .error e => .error e
    | .ok interactiveS =>
    match required_key doc5 "options" with
    | .error e => .error e
    | .ok options =>
    let doc6 := removeKey doc5 "options"
    let (warnings, doc7) := popKey doc6 "warnings" (.list [])
    match checkWarnings warnings with
    | .error e => .error e
    | .ok _ =>
    if doc7.isEmpty then
      .ok (some { id_ := (splitext (basename yaml_file)).1,
                  title := title, description := description, type_ := type_,
                  operator := operator,
                  interactive := interactiveS == "true",
                  options := options, warnings := warnings })
    else .error (unparsedMsg yaml_file doc7)

/-- The attributes of a rendered Value: id and type always; operator only
    when it is not the default "equals"; interactive only when true. -/
def valueAttrs (v : Value) : List (String × String) :=
  let a := [("id", v.id_), ("type", pyStr v.type_)]
  let a := if v.operator == "equals" then a else assocSet a "operator" v.operator
  if v.interactive then assocSet a "interactive" "true" else a

/-- The per-selector value children of a rendered Value: the "default"
    selector is the value without a selector attribute. -/
def valueOptionElems (opts : List (String × YamlValue)) : List Xml :=
  opts.map (fun p =>
    Xml.elem "value" (if p.1 == "default" then [] else [("selector", p.1)])
      (pyStr p.2) [])

/-- Value.to_xml_element: attributes, a plain-text title, a markup-bearing
    description, the warnings, then one value child per option. -/
def Value.to_xml_element (v : Value) : Except String Xml :=
  match warningElems v.warnings with
  | .error e => .error e
  | .ok warns =>
    match v.options with
    | .map opts =>
        .ok (.elem "Value" (valueAttrs v) ""
          ([Xml.elem "title" [] (pyStr v.title) [],
            add_sub_element_child "description" (pyStr v.description)]
           ++ warns ++ valueOptionElems opts))
    | _ => .error "AttributeError: options is not a mapping"

/-- Modelled from the spec: the external filesystem helper that derives a
    rule's id from its rule directory (a rule-directory descriptor named
    rule.yml takes its id from the directory containing it). -/
def get_rule_dir_id (yaml_file : String) : String :=
  basename (dirname yaml_file)

/-- The id Rule.from_yaml derives from the descriptor path: the file name
    without its extension, except that a rule-directory descriptor named
    rule.yml takes the rule directory's name. -/
def ruleIdOf (yaml_file : String) : String :=
  if (splitext (basename yaml_file)).1 == "rule" &&
     (splitext (basename yaml_file)).2 == ".yml"
  then get_rule_dir_id yaml_file
  else (splitext (basename yaml_file)).1

/-- Represents an XCCDF Rule (class Rule). -/
structure Rule where
  id_ : String
  prodtype : YamlValue
  title : YamlValue
  description : YamlValue
  rationale : YamlValue
  severity : YamlValue
  references : YamlValue
  identifiers : YamlValue
  ocil_clause : YamlValue
  ocil : YamlValue
  external_oval : YamlValue
  warnings : YamlValue
  platform : YamlValue

/-- The per-entry checks of Rule.validate_identifiers: values must be
    strings (the key is a string by construction here), must not be blank
    after trimming, and an identifier type beginning with "cce" must carry
    a value the external CCE checker accepts once prefixed with "CCE-". -/
def validateIdentEntries (is_cce_valid : String → Bool) (yaml_file : String) :
    List (String × YamlValue) → Except String Unit
  | [] => .ok ()
  | (ident_type, ident_val) :: rest =>
    match ident_val with
    | .str s =>
        if pyStrip s == "" then
          .error ("Identifiers must not be empty: " ++ ident_type ++
                  " in file " ++ yaml_file)
        else if ident_type.take 3 == "cce" && !is_cce_valid ("CCE-" ++ s) then
          .error ("CCE Identifiers must be valid: value " ++ s ++ " for cce " ++
                  ident_type ++ " in file " ++ yaml_file)
        else validateIdentEntries is_cce_valid yaml_file rest
    | _ =>
        .error ("Identifiers and values must be strings: " ++ ident_type ++
                " in file " ++ yaml_file)

/-- Rule.validate_identifiers: an explicit null identifiers section is an
    error, and every entry must pass the per-entry checks. -/
def Rule.validate_identifiers (is_cce_valid : String → Bool)
    (yaml_file : String) (identifiers : YamlValue) : Except String Unit :=
  match identifiers with
  | .null => .error ("Empty identifier section in file " ++ yaml_file)
  | .map m => validateIdentEntries is_cce_valid yaml_file m
  | _ => .error ("AttributeError: identifiers section is not a mapping in file "
                 ++ yaml_file)

/-- The per-entry checks of Rule.validate_references: values must be strings
    and must not be blank after trimming. -/
def validateRefEntries (yaml_file : String) :
    List (String × YamlValue) → Except String Unit
  | [] => .ok ()
  | (ref_type, ref_val) :: rest =>
    match ref_val with
    | .str s =>
        if pyStrip s == "" then
          .error ("References must not be empty: " ++ ref_type ++
                  " in file " ++ yaml_file)
        else validateRefEntries yaml_file rest
    | _ =>
        .error ("References and values must be strings: " ++ ref_type ++
                " in file " ++ yaml_file)

/-- Rule.validate_references: an explicit null references section is an
    error, and every entry must pass the per-entry checks. -/
def Rule.validate_references (yaml_file : String) (references : YamlValue) :
    Except String Unit :=
  match references with
  | .null => .error ("Empty references section in file " ++ yaml_file)
  | .map m => validateRefEntries yaml_file m
  | _ => .error ("AttributeError: references section is not a mapping in file "
                 ++ yaml_file)

/-- The keys Rule.from_yaml extracts, in extraction order. -/
def Rule.recognizedKeys : List String :=
  ["prodtype", "title", "description", "rationale", "severity", "references",
   "identifiers", "ocil_clause", "ocil", "oval_external_content", "warnings",
   "platform"]

/-- The keys Rule.from_yaml requires. -/
def Rule.requiredKeys : List String :=
  ["title", "description", "rationale", "severity"]

/-- Rule.from_yaml: the id is the descriptor file name without extension,
    except that a rule-directory descriptor named rule.yml takes its id
    from the rule directory; title, description, rationale and severity are
    required; references and identifiers default to empty mappings; any
    leftover key is a closed-schema error, checked before the identifier
    and reference validation. -/
def Rule.from_yaml (is_cce_valid : String → Bool) (yaml_file : String)
    (contents : Option Doc) : Except String (Option Rule) :=
  match contents with
  | none => .ok none
  | some doc0 =>
    let rule_id := ruleIdOf yaml_file
    let (prodtype, doc1) := popKey doc0 "prodtype" (.str "all")
    match required_key doc1 "title" with
    | .error e => .error e
    | .ok title =>
    let doc2 := removeKey doc1 "title"
    match required_key doc2 "description" with
    | .error e => .error e
    | .ok description =>
    let doc3 := removeKey doc2 "description"
    match required_key doc3 "rationale" with
    | .error e => .error e
    | .ok rationale =>
    let doc4 := removeKey doc3 "rationale"
    match required_key doc4 "severity" with
    | .error e => .error e
    | .ok severity =>
    let doc5 := removeKey doc4 "severity"
    let (references, doc6) := popKey doc5 "references" (.map [])
    let (identifiers, doc7) := popKey doc6 "identifiers" (.map [])
    let (ocil_clause, doc8) := popKey doc7 "ocil_clause" .null
    let (ocil, doc9) := popKey doc8 "ocil" .null
    let (external_oval, doc10) := popKey doc9 "oval_external_content" .null
    let (warnings, doc11) := popKey doc10 "warnings" (.list [])
    let (platform, doc12) := popKey doc11 "platform" .null
    match checkWarnings warnings with
    | .error e => .error e
    | .ok _ =>
    if doc12.isEmpty then
      match Rule.validate_identifiers is_cce_valid yaml_file identifiers with
      | .error e => .error e
      | .ok _ =>
      match Rule.validate_references yaml_file references with
      | .error e => .error e
      | .ok _ =>
        .ok (some { id_ := rule_id, prodtype := prodtype, title := title,
                    description := description, rationale := rationale,
                    severity := severity, references := references,
                    identifiers := identifiers, ocil_clause := ocil_clause,
                    ocil := ocil, external_oval := external_oval,
                    warnings := warnings, platform := platform })
    else .error (unparsedMsg yaml_file doc12)

/-- The identifier/reference loop of Rule.to_xml_element: an entry whose key
    has the form policy@product becomes its own element carrying an
    attribute named after the policy and a prodtype attribute equal to the
    product; other entries accumulate as attributes of the shared element.
    A key with more than one "@" faults (tuple unpacking). -/
def identRefPass (tagName : String) :
    List (String × YamlValue) → List Xml → List (String × String) →
    Except String (List Xml × List (String × String))
  | [], els, mainAttrs => .ok (els, mainAttrs)
  | (k, v) :: rest, els, mainAttrs =>
    if pyInChar '@' k then
      match pySplit k '@' with
      | [policy, product] =>
          identRefPass tagName rest
            (els ++ [Xml.elem tagName [(policy, pyStr v), ("prodtype", product)] "" []])
            mainAttrs
      | _ => .error ("ValueError: too many values to unpack: " ++ k)
    else
      identRefPass tagName rest els (assocSet mainAttrs k (pyStr v))

/-- Entry to the identifier/reference loop: the section must be a mapping
    (the source iterates .items()). -/
def identRefSeg (tagName : String) (v : YamlValue) :
    Except String (List Xml × List (String × String)) :=
  match v with
  | .map m => identRefPass tagName m [] []
  | _ => .error ("AttributeError: " ++ tagName ++ " section is not a mapping")

/-- The shared ident/ref element, appended only when it has at least one
    attribute. -/
def sharedElemSeg (tagName : String) (attrs : List (String × String)) : List Xml :=
  if attrs.isEmpty then [] else [Xml.elem tagName attrs "" []]

/-- The attributes of a rendered Rule: id, prodtype when not the default
    "all", then severity. -/
def ruleAttrs (r : Rule) : List (String × String) :=
  let a := [("id", r.id_)]
  let a := if isStrEq r.prodtype "all" then a else assocSet a "prodtype" (pyStr r.prodtype)
  assocSet a "severity" (pyStr r.severity)

/-- The check segment of a rendered Rule: an external-OVAL reference becomes
    a check element with a check-content-ref carrying the href; without one,
    a synthetic OVAL pointer reuses the rule's own id. -/
def ruleCheckSeg (r : Rule) : List Xml :=
  if pyTruthy r.external_oval then
    [Xml.elem "check" [("system", "http://oval.mitre.org/XMLSchema/oval-definitions-5")] ""
      [Xml.elem "check-content-ref" [("href", pyStr r.external_oval)] "" []]]
  else
    [Xml.elem "oval" [("id", r.id_)] "" []]

/-- The ocil segment of a rendered Rule: present when either the ocil body
    or the ocil clause is truthy. -/
def ruleOcilSeg (r : Rule) : List Xml :=
  if pyTruthy r.ocil || pyTruthy r.ocil_clause then
    [Xml.elem "ocil"
      (if pyTruthy r.ocil_clause then [("clause", pyStr r.ocil_clause)] else [])
      (if pyTruthy r.ocil then pyStr r.ocil else "") []]
  else []

/-- The platform segment of a rendered Rule or Group: a truthy platform is
    resolved through the platform-to-CPE table; an unknown (or non-string)
    platform is a hard error naming the offending id. -/
def platformSeg (cpeTable : List (String × String)) (platform : YamlValue)
    (id_ : String) : Except String (List Xml) :=
  if pyTruthy platform then
    match platform with
    | .str s =>
      match (cpeTable.find? (fun p => p.1 == s)).map (fun p => p.2) with
      | some cpe => .ok [Xml.elem "platform" [("idref", cpe)] "" []]
      | none => .error ("Unsupported platform '" ++ s ++ "' in rule '" ++ id_ ++ "'.")
    | _ => .error ("Unsupported platform '" ++ pyStr platform ++ "' in rule '" ++
                   id_ ++ "'.")
  else .ok []

/-- Rule.to_xml_element: attributes, markup-bearing title/description/
    rationale, the product-qualified identifier elements followed by the
    shared ident element (only if it has attributes), likewise for
    references, the check segment, the ocil segment, the warnings, and the
    platform resolved through the CPE table. -/
def Rule.to_xml_element (cpeTable : List (String × String)) (r : Rule) :
    Except String Xml :=
  match identRefSeg "ident" r.identifiers with
  | .error e => .error e
  | .ok (qualIdents, mainIdentAttrs) =>
    match identRefSeg "ref" r.references with
    | .error e => .error e
    | .ok (qualRefs, mainRefAttrs) =>
      match warningElems r.warnings with
      | .error e => .error e
      | .ok warns =>
        match platformSeg cpeTable r.platform r.id_ with
        | .error e => .error e
        | .ok platSeg =>
          .ok (.elem "Rule" (ruleAttrs r) ""
            ([add_sub_element_child "title" (pyStr r.title),
              add_sub_element_child "description" (pyStr r.description),
              add_sub_element_child "rationale" (pyStr r.rationale)]
             ++ qualIdents ++ sharedElemSeg "ident" mainIdentAttrs
             ++ qualRefs ++ sharedElemSeg "ref" mainRefAttrs
             ++ ruleCheckSeg r ++ ruleOcilSeg r ++ warns ++ platSeg))

/-- Represents an XCCDF Group (class Group): id, prodtype, title,
    description, warnings, id-keyed maps of Values/Groups/Rules in
    insertion order, and an optional platform. -/
inductive Group where
  | mk (id_ : String) (prodtype : YamlValue) (title : YamlValue)
       (description : YamlValue) (warnings : YamlValue)
       (values : List (String × Value)) (groups : List (String × Group))
       (rules : List (String × Rule)) (platform : YamlValue)

def Group.id_ : Group → String
  | .mk i _ _ _ _ _ _ _ _ => i

def Group.prodtype : Group → YamlValue
  | .mk _ p _ _ _ _ _ _ _ => p

def Group.title : Group → YamlValue
  | .mk _ _ t _ _ _ _ _ _ => t

def Group.description : Group → YamlValue
  | .mk _ _ _ d _ _ _ _ _ => d

def Group.warnings : Group → YamlValue
  | .mk _ _ _ _ w _ _ _ _ => w

def Group.values : Group → List (String × Value)
  | .mk _ _ _ _ _ vs _ _ _ => vs

def Group.groups : Group → List (String × Group)
  | .mk _ _ _ _ _ _ gs _ _ => gs

def Group.rules : Group → List (String × Rule)
  | .mk _ _ _ _ _ _ _ rs _ => rs

def Group.platform : Group → YamlValue
  | .mk _ _ _ _ _ _ _ _ pl => pl

/-- A copy of a Group with its platform replaced (models the attribute
    assignment performed by the push-down in Group.add_group). -/
def Group.withPlatform : Group → YamlValue → Group
  | .mk i p t d w vs gs rs _, pl => .mk i p t d w vs gs rs pl

/-- The keys Group.from_yaml extracts, in extraction order. -/
def Group.recognizedKeys : List String :=
  ["prodtype", "title", "description", "warnings", "platform"]

/-- The keys Group.from_yaml requires. -/
def Group.requiredKeys : List String :=
  ["title", "description"]

/-- Group.from_yaml: the id is the name of the directory containing the
    group.yml descriptor; title and description are required; prodtype
    defaults to "all"; warnings entries must be single-entry mappings; any
    leftover key is a closed-schema error. -/
def Group.from_yaml (yaml_file : String) (contents : Option Doc) :
    Except String (Option Group) :=
  match contents with
  | none => .ok none
  | some doc0 =>
    let group_id := basename (dirname yaml_file)
    let (prodtype, doc1) := popKey doc0 "prodtype" (.str "all")
    match required_key doc1 "title" with
    | .error e => .error e
    | .ok title =>
    let doc2 := removeKey doc1 "title"
    match required_key doc2 "description" with
    | .error e => .error e
    | .ok description =>
    let doc3 := removeKey doc2 "description"
    let (warnings, doc4) := popKey doc3 "warnings" (.list [])
    let (platform, doc5) := popKey doc4 "platform" .null
    match checkWarnings warnings with
    | .error e => .error e
    | .ok _ =>
    if doc5.isEmpty then
      .ok (some (.mk group_id prodtype title description warnings [] [] [] platform))
    else .error (unparsedMsg yaml_file doc5)

/-- Group.add_value: a None value is a no-op; otherwise the value is stored
    under its id. -/
def Group.add_value (g : Group) (value : Option Value) : Group :=
  match value with
  | none => g
  | some v =>
    match g with
    | .mk i p t d w vs gs rs pl => .mk i p t d w (assocSet vs v.id_ v) gs rs pl

/-- Group.add_group: a None group is a no-op; otherwise, when the parent has
    a truthy platform and the child does not, the parent's platform is
    pushed onto the child at the moment of insertion, and the child is
    stored under its id. -/
def Group.add_group (g : Group) (group : Option Group) : Group :=
  match group with
  | none => g
  | some c =>
    let c := if pyTruthy g.platform && !pyTruthy c.platform
             then c.withPlatform g.platform else c
    match g with
    | .mk i p t d w vs gs rs pl => .mk i p t d w vs (assocSet gs c.id_ c) rs pl

/-- Group.add_rule: a None rule is a no-op; otherwise, when the parent has a
    truthy platform and the rule does not, the parent's platform is pushed
    onto the rule at the moment of insertion, and the rule is stored under
    its id. -/
def Group.add_rule (g : Group) (rule : Option Rule) : Group :=
  match rule with
  | none => g
  | some r =>
    let r := if pyTruthy g.platform && !pyTruthy r.platform
             then { r with platform := g.platform } else r
    match g with
    | .mk i p t d w vs gs rs pl => .mk i p t d w vs gs (assocSet rs r.id_ r) pl

/-- Represents an XCCDF Benchmark (class Benchmark): the document root. -/
structure Benchmark where
  id_ : String
  title : YamlValue
  status : YamlValue
  description : YamlValue
  notice_id : YamlValue
  notice_description : YamlValue
  front_matter : YamlValue
  rear_matter : YamlValue
  cpes : List String
  version : String
  profiles : List (Option Profile)
  values : List (String × Value)
  bash_remediation_fns_group : Option Xml
  groups : List (String × Group)
  rules : List (String × Rule)

/-- Benchmark.add_value: a None value is a no-op; otherwise the value is
    stored under its id. -/
def Benchmark.add_value (b : Benchmark) (value : Option Value) : Benchmark :=
  match value with
  | none => b
  | some v => { b with values := assocSet b.values v.id_ v }

/-- Benchmark.add_group: a None group is a no-op; otherwise the group is
    stored under its id (no platform push-down; a Benchmark has no
    platform). -/
def Benchmark.add_group (b : Benchmark) (group : Option Group) : Benchmark :=
  match group with
  | none => b
  | some g => { b with groups := assocSet b.groups g.id_ g }

/-- Benchmark.add_rule: a None rule is a no-op; otherwise the rule is stored
    under its id (no platform push-down). -/
def Benchmark.add_rule (b : Benchmark) (rule : Option Rule) : Benchmark :=
  match rule with
  | none => b
  | some r => { b with rules := assocSet b.rules r.id_ r }

/-- The synthetic Value every Benchmark is seeded with, used by OCIL rule
    clauses. -/
def conditional_clause : Value :=
  { id_ := "conditional_clause",
    title := .str "A conditional clause for check statements.",
    description := .str "A conditional clause for check statements.",
    type_ := .str "string",
    operator := "equals", interactive := false,
    options := .map [("", .str "This is a placeholder")],
    warnings := .list [] }

/-- Benchmark.__init__: fresh fields plus the seeded conditional_clause
    value. -/
def Benchmark.init (id_ : String) : Benchmark :=
  Benchmark.add_value
    { id_ := id_, title := .str "", status := .str "", description := .str "",
      notice_id := .str "", notice_description := .str "",
      front_matter := .str "", rear_matter := .str "", cpes := [],
      version := "0.1", profiles := [], values := [],
      bash_remediation_fns_group := none, groups := [], rules := [] }
    (some conditional_clause)

/-- The keys Benchmark.from_yaml extracts from the top-level document, in
    extraction order. -/
def Benchmark.recognizedKeys : List String :=
  ["title", "status", "description", "notice", "front-matter", "rear-matter",
   "version"]

/-- The cpes assignment of Benchmark.from_yaml: a truthy product document
    must name a product present in the product-to-CPE table (a missing
    product key or an unknown product faults with KeyError). -/
def resolveCpes (productToCpe : List (String × List String))
    (product_yaml : Option Doc) : Except String (List String) :=
  match product_yaml with
  | none => .ok []
  | some py =>
    if py.isEmpty then .ok []
    else
      match lookupKey py "product" with
      | none => .error "KeyError: product"
      | some v =>
        match v with
        | .str s =>
          match (productToCpe.find? (fun p => p.1 == s)).map (fun p => p.2) with
          | some cpes => .ok cpes
          | none => .error ("KeyError: " ++ s)
        | _ => .error "KeyError: unhashable or unknown product"

/-- Benchmark.from_yaml: the id is supplied by the caller; title, status,
    description, the notice id and description, front-matter, rear-matter
    and version are required; the notice key is only consumed when its
    mapping is fully consumed by the id/description extraction, so leftover
    notice keys trip the closed-schema error; the cpes come from the
    product-to-CPE table when a product document is given. -/
def Benchmark.from_yaml (productToCpe : List (String × List String))
    (yaml_file : String) (id_ : String) (contents : Option Doc)
    (product_yaml : Option Doc) : Except String (Option Benchmark) :=
  match contents with
  | none => .ok none
  | some doc0 =>
    let benchmark := Benchmark.init id_
    match required_key doc0 "title" with
    | .error e => .error e
    | .ok title =>
    let doc1 := removeKey doc0 "title"
    match required_key doc1 "status" with
    | .error e => .error e
    | .ok status =>
    let doc2 := removeKey doc1 "status"
    match required_key doc2 "description" with
    | .error e => .error e
    | .ok description =>
    let doc3 := removeKey doc2 "description"
    match required_key doc3 "notice" with
    | .error e => .error e
    | .ok noticeV =>
    match noticeV with
    | .map notice0 =>
      match required_key notice0 "id" with
      | .error e => .error e
      | .ok notice_id =>
      let notice1 := removeKey notice0 "id"
      match required_key notice1 "description" with
      | .error e => .error e
      | .ok notice_description =>
      let notice2 := removeKey notice1 "description"
      let doc4 := if notice2.isEmpty then removeKey doc3 "notice"
                  else assocSet doc3 "notice" (.map notice2)
      match required_key doc4 "front-matter" with
      | .error e => .error e
      | .ok front_matter =>
      let doc5 := removeKey doc4 "front-matter"
      match required_key doc5 "rear-matter" with
      | .error e => .error e
      | .ok rear_matter =>
      let doc6 := removeKey doc5 "rear-matter"
      match required_key doc6 "version" with
      | .error e => .error e
      | .ok versionV =>
      let doc7 := removeKey doc6 "version"
      if doc7.isEmpty then
        match resolveCpes productToCpe product_yaml with
        | .error e => .error e
        | .ok cpes =>
          .ok (some { benchmark with
                        title := title, status := status,
                        description := description, notice_id := notice_id,
                        notice_description := notice_description,
                        front_matter := front_matter, rear_matter := rear_matter,
                        version := pyStr versionV, cpes := cpes })
      else .error (unparsedMsg yaml_file doc7)
    | _ => .error "TypeError: notice is not a mapping"

/-- A directory entry: a descriptor file with its already-expanded document
    (None models a document the loading layer returned as None), or a
    subdirectory with its own entries. -/
inductive FsEntry where
  | file (name : String) (contents : Option Doc)
  | dir (name : String) (entries : List FsEntry)

def FsEntry.name : FsEntry → String
  | .file n _ => n
  | .dir n _ => n

def FsEntry.isDir : FsEntry → Bool
  | .file _ _ => false
  | .dir _ _ => true

/-- The expanded document behind an entry (a directory opened as a file
    would fault in the source's runtime; no claim exercises that). -/
def FsEntry.doc : FsEntry → Option Doc
  | .file _ c => c
  | .dir _ _ => none

/-- Modelled from the spec: the external is_rule_dir helper recognizes the
    "rule directory" shape, a directory holding its canonical rule.yml
    descriptor. -/
def is_rule_dir : FsEntry → Bool
  | .dir _ entries => entries.any (fun e =>
      match e with
      | .file n _ => n == "rule.yml"
      | .dir _ _ => false)
  | .file _ _ => false

/-- Modelled from the spec: the external get_rule_dir_yaml helper locates
    the canonical rule.yml descriptor of a rule directory. -/
def get_rule_dir_doc : FsEntry → Option Doc
  | .dir _ entries =>
    match entries.find? (fun e =>
        match e with
        | .file n _ => n == "rule.yml"
        | .dir _ _ => false) with
    | some (.file _ c) => c
    | _ => none
  | .file _ _ => none

/-- The classification a directory's immediate entries fold into: at most
    one benchmark descriptor, at most one group descriptor, value and rule
    descriptors, and subdirectories to recurse into, each bucket in listing
    order. -/
structure DirScan where
  benchmark_file : Option (String × Option Doc)
  group_file : Option (String × Option Doc)
  rules : List (String × Option Doc)
  values : List (String × Option Doc)
  subdirectories : List (String × List FsEntry)

/-- The empty classification state. -/
def DirScan.init : DirScan :=
  { benchmark_file := none, group_file := none, rules := [], values := [],
    subdirectories := [] }

/-- One step of the classification loop of add_from_directory, in the
    source's cascade order: a ".var" extension is a value descriptor; the
    names benchmark.yml and group.yml are the (at most one each) benchmark/
    group descriptors; a ".rule" extension or a recognized rule directory is
    a rule descriptor; an entry named "tests" is skipped; any other
    directory is kept for recursion and any other file is skipped with a
    diagnostic. -/
def classifyStep (guide_directory : String) (e : FsEntry) (st : DirScan) :
    Except String DirScan :=
  let dir_item := e.name
  let dir_item_path := guide_directory ++ "/" ++ dir_item
  let extension := (splitext dir_item).2
  if extension == ".var" then
    .ok { st with values := st.values ++ [(dir_item_path, e.doc)] }
  else if dir_item == "benchmark.yml" then
    if st.benchmark_file.isSome then
      .error "Multiple benchmarks in one directory"
    else .ok { st with benchmark_file := some (dir_item_path, e.doc) }
  else if dir_item == "group.yml" then
    if st.group_file.isSome then
      .error "Multiple groups in one directory"
    else .ok { st with group_file := some (dir_item_path, e.doc) }
  else if extension == ".rule" then
    .ok { st with rules := st.rules ++ [(dir_item_path, e.doc)] }
  else if is_rule_dir e then
    .ok { st with
            rules := st.rules ++ [(dir_item_path ++ "/rule.yml", get_rule_dir_doc e)] }
  else if dir_item == "tests" then
    .ok st
  else
    match e with
    | .dir _ subEntries =>
        .ok { st with
                subdirectories := st.subdirectories ++ [(dir_item_path, subEntries)] }
    | .file _ _ => .ok st

/-- The classification loop of add_from_directory: every immediate entry is
    classified in listing order; the first duplicate benchmark or group
    descriptor aborts. -/
def classifyEntries (guide_directory : String) :
    List FsEntry → DirScan → Except String DirScan
  | [], st => .ok st
  | e :: rest, st =>
    match classifyStep guide_directory e st with
    | .error err => .error err
    | .ok st2 => classifyEntries guide_directory rest st2

/-- A Benchmark or a Group ("we treat benchmark as a special form of group"
    in the source). -/
inductive GroupLike where
  | bench (b : Benchmark)
  | group (g : Group)

/-- Benchmark.add_profiles_from_dir: every plain file with a ".profile"
    extension in the profiles directory is parsed and appended (a parse that
    yields None appends None); other files are skipped with a diagnostic,
    directories are skipped. -/
def Benchmark.add_profiles_from_dir (b : Benchmark) (dir_ : String)
    (entries : List FsEntry) : Except String Benchmark :=
  match entries with
  | [] => .ok b
  | e :: rest =>
    match e with
    | .dir _ _ => Benchmark.add_profiles_from_dir b dir_ rest
    | .file n c =>
      if (splitext n).2 == ".profile" then
        match Profile.from_yaml (dir_ ++ "/" ++ n) c with
        | .error err => .error err
        | .ok p =>
            Benchmark.add_profiles_from_dir
              { b with profiles := b.profiles ++ [p] } dir_ rest
      else Benchmark.add_profiles_from_dir b dir_ rest

/-- Benchmark.add_bash_remediation_fns_from_file: in list-inputs mode the
    file is only reported; otherwise its (externally parsed) root element is
    attached. -/
def Benchmark.add_bash_remediation_fns (b : Benchmark) (action : String)
    (bash_remediation_fns : Xml) : Benchmark :=
  if action == "list-inputs" then b
  else { b with bash_remediation_fns_group := some bash_remediation_fns }

/-- load_benchmark_or_group: a benchmark and a group descriptor in the same
    directory is a hard error, checked before anything is parsed; a
    benchmark descriptor additionally loads the profiles directory and the
    bash remediation functions document (calling those on a None parse
    faults, as the source would). -/
def load_benchmark_or_group (productToCpe : List (String × List String))
    (group_file benchmark_file : Option (String × Option Doc))
    (guide_directory : String) (action : String)
    (profiles_dir : Option (String × List FsEntry)) (env_yaml : Option Doc)
    (bash_remediation_fns : Xml) : Except String (Option GroupLike) :=
  match group_file, benchmark_file with
  | some _, some _ =>
      .error ("A .benchmark file and a .group file were found in the same directory '"
              ++ guide_directory ++ "'")
  | _, _ =>
    match benchmark_file with
    | some (bpath, bdoc) =>
      match Benchmark.from_yaml productToCpe bpath "product-name" bdoc env_yaml with
      | .error e => .error e
      | .ok none => .error "AttributeError: NoneType has no attribute"
      | .ok (some b) =>
        let withProfiles :=
          match profiles_dir with
          | some (ppath, pentries) => Benchmark.add_profiles_from_dir b ppath pentries
          | none => .ok b
        match withProfiles with
        | .error e => .error e
        | .ok b =>
            .ok (some (.bench (Benchmark.add_bash_remediation_fns b action
                                bash_remediation_fns)))
    | none =>
      match group_file with
      | some (gpath, gdoc) =>
        match Group.from_yaml gpath gdoc with
        | .error e => .error e
        | .ok none => .ok none
        | .ok (some g) => .ok (some (.group g))
      | none => .ok none

/-- Dispatch of add_value over the two container kinds. -/
def GroupLike.add_value : GroupLike → Option Value → GroupLike
  | .bench b, v => .bench (b.add_value v)
  | .group g, v => .group (g.add_value v)

/-- Dispatch of add_rule over the two container kinds. -/
def GroupLike.add_rule : GroupLike → Option Rule → GroupLike
  | .bench b, r => .bench (b.add_rule r)
  | .group g, r => .group (g.add_rule r)

/-- The platform a container pushes down on insertion: only a Group has
    one. -/
def GroupLike.platform : GroupLike → YamlValue
  | .bench _ => .null
  | .group g => g.platform

/-- Attaching a child container built by a recursive call: a Group child
    goes through the parent's add_group (the platform push-down already
    happened at the moment the child was linked, see add_from_directory); a
    Benchmark child below the top level is not representable in the id-keyed
    group maps (the source would mis-nest the object; no real content tree
    or claim exercises it). -/
def GroupLike.attach_group : GroupLike → Option GroupLike → Except String GroupLike
  | g, none => .ok g
  | .bench b, some (.group c) => .ok (.bench (b.add_group (some c)))
  | .group g, some (.group c) => .ok (.group (g.add_group (some c)))
  | _, some (.bench _) => .error "nested benchmark below the top level"

/-- The push-down a parent performs when a freshly loaded child is linked
    into it (Group.add_group, called in the source before the child's own
    values, subdirectories and rules are attached): a Group parent with a
    truthy platform sets it on a child Group lacking one; a Benchmark child
    under such a parent faults (it has no platform attribute). -/
def inheritPlatform (parentPlatform : YamlValue) (c : GroupLike) :
    Except String GroupLike :=
  match c with
  | .group g =>
      .ok (.group (if pyTruthy parentPlatform && !pyTruthy g.platform
                   then g.withPlatform parentPlatform else g))
  | .bench b =>
      if pyTruthy parentPlatform then .error "AttributeError: platform"
      else .ok (.bench b)

/-- The value-attachment loop of add_from_directory: in list-inputs mode the
    descriptors are only reported; otherwise each is parsed and added. -/
def attachValues (action : String) (env_yaml : Option Doc) :
    GroupLike → List (String × Option Doc) → Except String GroupLike
  | g, [] => .ok g
  | g, (path, doc) :: rest =>
    if action == "list-inputs" then attachValues action env_yaml g rest
    else
      match Value.from_yaml path doc with
      | .error e => .error e
      | .ok v => attachValues action env_yaml (g.add_value v) rest

/-- The rule-attachment loop of add_from_directory: in list-inputs mode the
    descriptors are only reported; otherwise each is parsed and added. -/
def attachRules (is_cce_valid : String → Bool) (action : String)
    (env_yaml : Option Doc) :
    GroupLike → List (String × Option Doc) → Except String GroupLike
  | g, [] => .ok g
  | g, (path, doc) :: rest =>
    if action == "list-inputs" then attachRules is_cce_valid action env_yaml g rest
    else
      match Rule.from_yaml is_cce_valid path doc with
      | .error e => .error e
      | .ok r => attachRules is_cce_valid action env_yaml (g.add_rule r) rest

mutual

/-- add_from_directory: classify the directory's entries, load its (at most
    one) benchmark-or-group descriptor, link it under the parent's platform,
    attach its values, recurse into its subdirectories depth-first, and
    finally attach its rules.  The recursion depth is bounded by explicit
    fuel; the source's unbounded recursion corresponds to any sufficiently
    large fuel, and writing the finished root to the output file is external
    I/O (the built node is returned instead). -/
def add_from_directory (productToCpe : List (String × List String))
    (is_cce_valid : String → Bool) (fuel : Nat) (action : String)
    (parentPlatform : Option YamlValue) (guide_directory : String)
    (entries : List FsEntry) (profiles_dir : Option (String × List FsEntry))
    (bash_remediation_fns : Xml) (env_yaml : Option Doc) :
    Except String (Option GroupLike) :=
  match fuel with
  | 0 => .error "RecursionError: maximum recursion depth exceeded"
  | fuel' + 1 =>
    match classifyEntries guide_directory entries DirScan.init with
    | .error e => .error e
    | .ok st =>
      match load_benchmark_or_group productToCpe st.group_file st.benchmark_file
              guide_directory action profiles_dir env_yaml bash_remediation_fns with
      | .error e => .error e
      | .ok none => .ok none
      | .ok (some g0) =>
        let linked := match parentPlatform with
                      | some pl => inheritPlatform pl g0
                      | none => .ok g0
        match linked with
        | .error e => .error e
        | .ok g1 =>
          match attachValues action env_yaml g1 st.values with
          | .error e => .error e
          | .ok g2 =>
            match recurseSubdirs productToCpe is_cce_valid fuel' action g2
                    st.subdirectories profiles_dir bash_remediation_fns env_yaml with
            | .error e => .error e
            | .ok g3 =>
              match attachRules is_cce_valid action env_yaml g3 st.rules with
              | .error e => .error e
              | .ok g4 => .ok (some g4)

/-- The subdirectory loop of add_from_directory: each subdirectory is built
    with the current node as parent and its result linked into the current
    node's group map. -/
def recurseSubdirs (productToCpe : List (String × List String))
    (is_cce_valid : String → Bool) (fuel : Nat) (action : String)
    (g : GroupLike) (subdirs : List (String × List FsEntry))
    (profiles_dir : Option (String × List FsEntry))
    (bash_remediation_fns : Xml) (env_yaml : Option Doc) :
    Except String GroupLike :=
  match subdirs with
  | [] => .ok g
  | (path, subEntries) :: rest =>
    match add_from_directory productToCpe is_cce_valid fuel action
            (some g.platform) path subEntries profiles_dir
            bash_remediation_fns env_yaml with
    | .error e => .error e
    | .ok sub =>
      match GroupLike.attach_group g sub with
      | .error e => .error e
      | .ok g' =>
          recurseSubdirs productToCpe is_cce_valid fuel action g' rest
            profiles_dir bash_remediation_fns env_yaml

end

/-! Basic lemmas about the document operations. -/

theorem lookupKey_removeKey (doc : Doc) (k k' : String) :
    lookupKey (removeKey doc k) k' = if k' = k then none else lookupKey doc k' := by
  induction doc with
  | nil => simp [removeKey, lookupKey]
  | cons p rest ih =>
    obtain ⟨pk, pv⟩ := p
    by_cases hpk : pk = k
    · have h1 : removeKey ((pk, pv) :: rest) k = removeKey rest k := by
        simp [removeKey, List.filter_cons, hpk]
      rw [h1, ih]
      by_cases hk : k' = k
      · simp [hk]
      · have hne : pk ≠ k' := fun h => hk (by rw [← h, hpk])
        simp [lookupKey, hk, hne]
    · have h1 : removeKey ((pk, pv) :: rest) k = (pk, pv) :: removeKey rest k := by
        simp [removeKey, List.filter_cons, hpk]
      rw [h1]
      by_cases hpk' : pk = k'
      · have hk : k' ≠ k := fun h => hpk (by rw [hpk', h])
        simp [lookupKey, hpk', hk]
      · simp [lookupKey, hpk', ih]

theorem lookupKey_removeKey_ne (doc : Doc) (k k' : String) (h : k' ≠ k) :
    lookupKey (removeKey doc k) k' = lookupKey doc k' := by
  rw [lookupKey_removeKey, if_neg h]

/-- Removal of a list of keys, in order (the net effect of a parser's
    extraction sequence on its working document). -/
def removeKeys (doc : Doc) : List String → Doc
  | [] => doc
  | k :: ks => removeKeys (removeKey doc k) ks

theorem removeKeys_eq_nil (ks : List String) (doc : Doc)
    (h : ∀ p ∈ doc, p.1 ∈ ks) : removeKeys doc ks = [] := by
  induction ks generalizing doc with
  | nil =>
    cases doc with
    | nil => rfl
    | cons p rest => exact absurd (h p (by simp)) (by simp)
  | cons k ks ih =>
    simp only [removeKeys]
    refine ih _ (fun p hp => ?_)
    simp only [removeKey, List.mem_filter] at hp
    rcases hp with ⟨hmem, hne⟩
    have := h p hmem
    simp only [List.mem_cons] at this
    rcases this with h1 | h2
    · exact absurd h1 (by simpa using hne)
    · exact h2

theorem mem_removeKey (doc : Doc) (k : String) (p : String × YamlValue)
    (hp : p ∈ doc) (hne : p.1 ≠ k) : p ∈ removeKey doc k := by
  simp [removeKey, List.mem_filter, hp, hne]

theorem mem_removeKeys (ks : List String) (doc : Doc) (p : String × YamlValue)
    (hp : p ∈ doc) (hk : p.1 ∉ ks) : p ∈ removeKeys doc ks := by
  induction ks generalizing doc with
  | nil => exact hp
  | cons k ks ih =>
    simp only [List.mem_cons, not_or] at hk
    exact ih _ (mem_removeKey doc k p hp hk.1) hk.2

theorem removeKeys_ne_nil (ks : List String) (doc : Doc)
    (p : String × YamlValue) (hp : p ∈ doc) (hk : p.1 ∉ ks) :
    removeKeys doc ks ≠ [] :=
  List.ne_nil_of_mem (mem_removeKeys ks doc p hp hk)

/-- Every key of the document lies in the given list (after extracting that
    list of recognized keys, nothing is left). -/
@[reducible] def keysUnder (doc : Doc) (ks : List String) : Prop :=
  ∀ p ∈ doc, p.1 ∈ ks

/-- The document stores the key (Python `k in d`). -/
@[reducible] def hasKey (doc : Doc) (k : String) : Prop :=
  (lookupKey doc k).isSome = true

/-! Per-entity parsing lemmas: with every required field present, every
    extraction-phase validation passing, and every key recognized, parsing
    succeeds; with a leftover unrecognized key, it fails with the
    closed-schema error carrying the leftover document. -/

theorem Profile_from_yaml_ok (f : String) (doc : Doc) (tv dv sv : YamlValue)
    (hT : lookupKey doc "title" = some tv)
    (hD : lookupKey doc "description" = some dv)
    (hS : lookupKey doc "selections" = some sv)
    (hK : keysUnder doc Profile.recognizedKeys) :
    Profile.from_yaml f (some doc) =
      .ok (some { id_ := (splitext (basename f)).1, title := tv,
                  description := dv,
                  extends_ := (lookupKey doc "extends").getD .null,
                  selections := sv }) := by
  have h3 : removeKeys doc Profile.recognizedKeys = [] :=
    removeKeys_eq_nil Profile.recognizedKeys doc hK
  simp only [Profile.recognizedKeys, removeKeys] at h3
  simp only [Profile.from_yaml, required_key, popKey, lookupKey_removeKey,
    String.reduceEq, reduceIte, hT, hD, hS, h3]
  simp

theorem Profile_from_yaml_leftover (f : String) (doc : Doc) (tv dv sv : YamlValue)
    (hT : lookupKey doc "title" = some tv)
    (hD : lookupKey doc "description" = some dv)
    (hS : lookupKey doc "selections" = some sv)
    (hL : removeKeys doc Profile.recognizedKeys ≠ []) :
    Profile.from_yaml f (some doc) =
      .error (unparsedMsg f (removeKeys doc Profile.recognizedKeys)) := by
  have h5 : (removeKeys doc Profile.recognizedKeys).isEmpty = false := by
    cases hcase : removeKeys doc Profile.recognizedKeys with
    | nil => exact absurd hcase hL
    | cons a l => rfl
  simp only [Profile.recognizedKeys, removeKeys] at h5
  simp only [Profile.from_yaml, required_key, popKey, lookupKey_removeKey,
    String.reduceEq, reduceIte, hT, hD, hS, h5]
  simp
  rfl

theorem Value_from_yaml_ok (f : String) (doc : Doc) (tv dv tyv ov : YamlValue)
    (op s : String)
    (hT : lookupKey doc "title" = some tv)
    (hD : lookupKey doc "description" = some dv)
    (hTy : lookupKey doc "type" = some tyv)
    (hOp : (lookupKey doc "operator").getD (.str "equals") = .str op)
    (hOp7 : op ∈ possible_operators)
    (hI : (lookupKey doc "interactive").getD (.str "false") = .str s)
    (hO : lookupKey doc "options" = some ov)
    (hW : checkWarnings ((lookupKey doc "warnings").getD (.list [])) = .ok ())
    (hK : keysUnder doc Value.recognizedKeys) :
    Value.from_yaml f (some doc) =
      .ok (some { id_ := (splitext (basename f)).1, title := tv,
                  description := dv, type_ := tyv, operator := op,
                  interactive := s.toLower == "true",
                  options := ov,
                  warnings := (lookupKey doc "warnings").getD (.list []) }) := by
  have h3 : removeKeys doc Value.recognizedKeys = [] :=
    removeKeys_eq_nil Value.recognizedKeys doc hK
  simp only [Value.recognizedKeys, removeKeys] at h3
  simp only [Value.from_yaml, required_key, popKey, lookupKey_removeKey,
    String.reduceEq, reduceIte, hT, hD, hTy, hO, h3, checkOperator, pyLower]
  rw [hOp, hI, hW]
  simp [hOp7]

theorem Value_from_yaml_leftover (f : String) (doc : Doc) (tv dv tyv ov : YamlValue)
    (op s : String)
    (hT : lookupKey doc "title" = some tv)
    (hD : lookupKey doc "description" = some dv)
    (hTy : lookupKey doc "type" = some tyv)
    (hOp : (lookupKey doc "operator").getD (.str "equals") = .str op)
    (hOp7 : op ∈ possible_operators)
    (hI : (lookupKey doc "interactive").getD (.str "false") = .str s)
    (hO : lookupKey doc "options" = some ov)
    (hW : checkWarnings ((lookupKey doc "warnings").getD (.list [])) = .ok ())
    (hL : removeKeys doc Value.recognizedKeys ≠ []) :
    Value.from_yaml f (some doc) =
      .error (unparsedMsg f (removeKeys doc Value.recognizedKeys)) := by
  have h5 : (removeKeys doc Value.recognizedKeys).isEmpty = false := by
    cases hcase : removeKeys doc Value.recognizedKeys with
    | nil => exact absurd hcase hL
    | cons a l => rfl
  simp only [Value.recognizedKeys, removeKeys] at h5
  simp only [Value.from_yaml, required_key, popKey, lookupKey_removeKey,
    String.reduceEq, reduceIte, hT, hD, hTy, hO, checkOperator, pyLower, h5]
  rw [hOp, hI, hW]
  simp [hOp7]
  rfl

theorem Group_from_yaml_ok (f : String) (doc : Doc) (tv dv : YamlValue)
    (hT : lookupKey doc "title" = some tv)
    (hD : lookupKey doc "description" = some dv)
    (hW : checkWarnings ((lookupKey doc "warnings").getD (.list [])) = .ok ())
    (hK : keysUnder doc Group.recognizedKeys) :
    Group.from_yaml f (some doc) =
      .ok (some (.mk (basename (dirname f))
                  ((lookupKey doc "prodtype").getD (.str "all")) tv dv
                  ((lookupKey doc "warnings").getD (.list [])) [] [] []
                  ((lookupKey doc "platform").getD .null))) := by
  have h3 : removeKeys doc Group.recognizedKeys = [] :=
    removeKeys_eq_nil Group.recognizedKeys doc hK
  simp only [Group.recognizedKeys, removeKeys] at h3
  simp only [Group.from_yaml, required_key, popKey, lookupKey_removeKey,
    String.reduceEq, reduceIte, hT, hD, h3]
  rw [hW]
  simp

theorem Group_from_yaml_leftover (f : String) (doc : Doc) (tv dv : YamlValue)
    (hT : lookupKey doc "title" = some tv)
    (hD : lookupKey doc "description" = some dv)
    (hW : checkWarnings ((lookupKey doc "warnings").getD (.list [])) = .ok ())
    (hL : removeKeys doc Group.recognizedKeys ≠ []) :
    Group.from_yaml f (some doc) =
      .error (unparsedMsg f (removeKeys doc Group.recognizedKeys)) := by
  have h5 : (removeKeys doc Group.recognizedKeys).isEmpty = false := by
    cases hcase : removeKeys doc Group.recognizedKeys with
    | nil => exact absurd hcase hL
    | cons a l => rfl
  simp only [Group.recognizedKeys, removeKeys] at h5
  simp only [Group.from_yaml, required_key, popKey, lookupKey_removeKey,
    String.reduceEq, reduceIte, hT, hD, h5]
  rw [hW]
  simp
  rfl

theorem Rule_from_yaml_ok (cce : String → Bool) (f : String) (doc : Doc)
    (tv dv rv sv : YamlValue)
    (hT : lookupKey doc "title" = some tv)
    (hD : lookupKey doc "description" = some dv)
    (hR : lookupKey doc "rationale" = some rv)
    (hS : lookupKey doc "severity" = some sv)
    (hW : checkWarnings ((lookupKey doc "warnings").getD (.list [])) = .ok ())
    (hVi : Rule.validate_identifiers cce f
             ((lookupKey doc "identifiers").getD (.map [])) = .ok ())
    (hVr : Rule.validate_references f
             ((lookupKey doc "references").getD (.map [])) = .ok ())
    (hK : keysUnder doc Rule.recognizedKeys) :
    Rule.from_yaml cce f (some doc) =
      .ok (some { id_ := ruleIdOf f,
                  prodtype := (lookupKey doc "prodtype").getD (.str "all"),
                  title := tv, description := dv, rationale := rv,
                  severity := sv,
                  references := (lookupKey doc "references").getD (.map []),
                  identifiers := (lookupKey doc "identifiers").getD (.map []),
                  ocil_clause := (lookupKey doc "ocil_clause").getD .null,
                  ocil := (lookupKey doc "ocil").getD .null,
                  external_oval := (lookupKey doc "oval_external_content").getD .null,
                  warnings := (lookupKey doc "warnings").getD (.list []),
                  platform := (lookupKey doc "platform").getD .null }) := by
  have h3 : removeKeys doc Rule.recognizedKeys = [] :=
    removeKeys_eq_nil Rule.recognizedKeys doc hK
  simp only [Rule.recognizedKeys, removeKeys] at h3
  simp only [Rule.from_yaml, required_key, popKey, lookupKey_removeKey,
    String.reduceEq, reduceIte, hT, hD, hR, hS, h3]
  rw [hW, hVi, hVr]
  simp

theorem Rule_from_yaml_leftover (cce : String → Bool) (f : String) (doc : Doc)
    (tv dv rv sv : YamlValue)
    (hT : lookupKey doc "title" = some tv)
    (hD : lookupKey doc "description" = some dv)
    (hR : lookupKey doc "rationale" = some rv)
    (hS : lookupKey doc "severity" = some sv)
    (hW : checkWarnings ((lookupKey doc "warnings").getD (.list [])) = .ok ())
    (hL : removeKeys doc Rule.recognizedKeys ≠ []) :
    Rule.from_yaml cce f (some doc) =
      .error (unparsedMsg f (removeKeys doc Rule.recognizedKeys)) := by
  have h5 : (removeKeys doc Rule.recognizedKeys).isEmpty = false := by
    cases hcase : removeKeys doc Rule.recognizedKeys with
    | nil => exact absurd hcase hL
    | cons a l => rfl
  simp only [Rule.recognizedKeys, removeKeys] at h5
  simp only [Rule.from_yaml, required_key, popKey, lookupKey_removeKey,
    String.reduceEq, reduceIte, hT, hD, hR, hS, h5]
  rw [hW]
  simp
  rfl

theorem Benchmark_from_yaml_ok (productToCpe : List (String × List String))
    (f id_ : String) (doc : Doc) (product_yaml : Option Doc) (nm : Doc)
    (tv stv dv niv ndv fv rv vv : YamlValue) (cpes : List String)
    (hT : lookupKey doc "title" = some tv)
    (hSt : lookupKey doc "status" = some stv)
    (hD : lookupKey doc "description" = some dv)
    (hN : lookupKey doc "notice" = some (.map nm))
    (hNid : lookupKey nm "id" = some niv)
    (hNd : lookupKey nm "description" = some ndv)
    (hNk : keysUnder nm ["id", "description"])
    (hF : lookupKey doc "front-matter" = some fv)
    (hRr : lookupKey doc "rear-matter" = some rv)
    (hV : lookupKey doc "version" = some vv)
    (hC : resolveCpes productToCpe product_yaml = .ok cpes)
    (hK : keysUnder doc Benchmark.recognizedKeys) :
    Benchmark.from_yaml productToCpe f id_ (some doc) product_yaml =
      .ok (some { Benchmark.init id_ with
                    title := tv, status := stv, description := dv,
                    notice_id := niv, notice_description := ndv,
                    front_matter := fv, rear_matter := rv,
                    version := pyStr vv, cpes := cpes }) := by
  have hNd2 : lookupKey (removeKey nm "id") "description" = some ndv := by
    rw [lookupKey_removeKey_ne _ _ _ (by decide)]; exact hNd
  have h6 : removeKeys nm ["id", "description"] = [] :=
    removeKeys_eq_nil _ nm hNk
  simp only [removeKeys] at h6
  have h3 : removeKeys doc Benchmark.recognizedKeys = [] :=
    removeKeys_eq_nil Benchmark.recognizedKeys doc hK
  simp only [Benchmark.recognizedKeys, removeKeys] at h3
  simp only [Benchmark.from_yaml, required_key, popKey, lookupKey_removeKey,
    String.reduceEq, reduceIte, List.isEmpty_nil, hT, hSt, hD, hN, hNid, hNd2,
    h6, hF, hRr, hV, h3]
  rw [hC]

theorem Benchmark_from_yaml_leftover (productToCpe : List (String × List String))
    (f id_ : String) (doc : Doc) (product_yaml : Option Doc) (nm : Doc)
    (tv stv dv niv ndv fv rv vv : YamlValue)
    (hT : lookupKey doc "title" = some tv)
    (hSt : lookupKey doc "status" = some stv)
    (hD : lookupKey doc "description" = some dv)
    (hN : lookupKey doc "notice" = some (.map nm))
    (hNid : lookupKey nm "id" = some niv)
    (hNd : lookupKey nm "description" = some ndv)
    (hNk : keysUnder nm ["id", "description"])
    (hF : lookupKey doc "front-matter" = some fv)
    (hRr : lookupKey doc "rear-matter" = some rv)
    (hV : lookupKey doc "version" = some vv)
    (hL : removeKeys doc Benchmark.recognizedKeys ≠ []) :
    Benchmark.from_yaml productToCpe f id_ (some doc) product_yaml =
      .error (unparsedMsg f (removeKeys doc Benchmark.recognizedKeys)) := by
  have hNd2 : lookupKey (removeKey nm "id") "description" = some ndv := by
    rw [lookupKey_removeKey_ne _ _ _ (by decide)]; exact hNd
  have h6 : removeKeys nm ["id", "description"] = [] :=
    removeKeys_eq_nil _ nm hNk
  simp only [removeKeys] at h6
  have h5 : (removeKeys doc Benchmark.recognizedKeys).isEmpty = false := by
    cases hcase : removeKeys doc Benchmark.recognizedKeys with
    | nil => exact absurd hcase hL
    | cons a l => rfl
  simp only [Benchmark.recognizedKeys, removeKeys] at h5
  simp only [Benchmark.from_yaml, required_key, popKey, lookupKey_removeKey,
    String.reduceEq, reduceIte, List.isEmpty_nil, hT, hSt, hD, hN, hNid, hNd2,
    h6, hF, hRr, hV, h5]
  simp
  rfl

/-! Claim C1. -/

/-- A Value descriptor on which the original claim C1 fails: every required
    field is present and every key is recognized, yet parsing fails, because
    the operator field holds a string outside the seven enumerated
    operators. -/
def c1BadDoc : Doc :=
  [("title", .str "T"), ("description", .str "D"), ("type", .str "string"),
   ("operator", .str "bogus"), ("options", .map [("default", .str "1")])]

/-- C1, counterexample: a Value descriptor with all required fields present
    and no unrecognized key, whose parse nevertheless fails (with the
    invalid-operator error), refuting the claim that parsing succeeds
    whenever no keys remain and all required fields are present. -/
theorem claim_C1_counterexample :
    (∀ k ∈ Value.requiredKeys, hasKey c1BadDoc k) ∧
    keysUnder c1BadDoc Value.recognizedKeys ∧
    Value.from_yaml "memory.var" (some c1BadDoc) =
      .error (invalidOperatorMsg (.str "bogus") "memory.var") :=
  ⟨by decide, by decide, rfl⟩

/-- C1 (amended): for every entity type, parsing fails with the schema error
    naming the offending file and the leftover keys whenever an unrecognized
    key remains after extraction; and parsing succeeds when no unrecognized
    key remains, all required fields are present, and the extraction-phase
    field validations pass (Value's operator enumeration and interactive
    string, the warning-entry shapes, Benchmark's notice mapping and product
    lookup, Rule's identifier and reference validation). -/
theorem claim_C1 :
    (∀ f doc, hasKey doc "title" → hasKey doc "description" →
      hasKey doc "selections" →
      (∃ p ∈ doc, p.1 ∉ Profile.recognizedKeys) →
      ∃ rest, Profile.from_yaml f (some doc) = .error (unparsedMsg f rest) ∧
        rest ≠ []) ∧
    (∀ f doc, hasKey doc "title" → hasKey doc "description" →
      hasKey doc "selections" → keysUnder doc Profile.recognizedKeys →
      ∃ p, Profile.from_yaml f (some doc) = .ok (some p)) ∧
    (∀ f doc, hasKey doc "title" → hasKey doc "description" →
      hasKey doc "type" → hasKey doc "options" →
      (∃ op, (lookupKey doc "operator").getD (.str "equals") = .str op ∧
        op ∈ possible_operators) →
      (∃ s, (lookupKey doc "interactive").getD (.str "false") = .str s) →
      checkWarnings ((lookupKey doc "warnings").getD (.list [])) = .ok () →
      (∃ p ∈ doc, p.1 ∉ Value.recognizedKeys) →
      ∃ rest, Value.from_yaml f (some doc) = .error (unparsedMsg f rest) ∧
        rest ≠ []) ∧
    (∀ f doc, hasKey doc "title" → hasKey doc "description" →
      hasKey doc "type" → hasKey doc "options" →
      (∃ op, (lookupKey doc "operator").getD (.str "equals") = .str op ∧
        op ∈ possible_operators) →
      (∃ s, (lookupKey doc "interactive").getD (.str "false") = .str s) →
      checkWarnings ((lookupKey doc "warnings").getD (.list [])) = .ok () →
      keysUnder doc Value.recognizedKeys →
      ∃ v, Value.from_yaml f (some doc) = .ok (some v)) ∧
    (∀ f doc, hasKey doc "title" → hasKey doc "description" →
      checkWarnings ((lookupKey doc "warnings").getD (.list [])) = .ok () →
      (∃ p ∈ doc, p.1 ∉ Group.recognizedKeys) →
      ∃ rest, Group.from_yaml f (some doc) = .error (unparsedMsg f rest) ∧
        rest ≠ []) ∧
    (∀ f doc, hasKey doc "title" → hasKey doc "description" →
      checkWarnings ((lookupKey doc "warnings").getD (.list [])) = .ok () →
      keysUnder doc Group.recognizedKeys →
      ∃ g, Group.from_yaml f (some doc) = .ok (some g)) ∧
    (∀ cce f doc, hasKey doc "title" → hasKey doc "description" →
      hasKey doc "rationale" → hasKey doc "severity" →
      checkWarnings ((lookupKey doc "warnings").getD (.list [])) = .ok () →
      (∃ p ∈ doc, p.1 ∉ Rule.recognizedKeys) →
      ∃ rest, Rule.from_yaml cce f (some doc) = .error (unparsedMsg f rest) ∧
        rest ≠ []) ∧
    (∀ cce f doc, hasKey doc "title" → hasKey doc "description" →
      hasKey doc "rationale" → hasKey doc "severity" →
      checkWarnings ((lookupKey doc "warnings").getD (.list [])) = .ok () →
      Rule.validate_identifiers cce f
        ((lookupKey doc "identifiers").getD (.map [])) = .ok () →
      Rule.validate_references f
        ((lookupKey doc "references").getD (.map [])) = .ok () →
      keysUnder doc Rule.recognizedKeys →
      ∃ r, Rule.from_yaml cce f (some doc) = .ok (some r)) ∧
    (∀ productToCpe f id_ doc product_yaml nm,
      hasKey doc "title" → hasKey doc "status" → hasKey doc "description" →
      lookupKey doc "notice" = some (.map nm) →
      hasKey nm "id" → hasKey nm "description" →
      keysUnder nm ["id", "description"] →
      hasKey doc "front-matter" → hasKey doc "rear-matter" →
      hasKey doc "version" →
      (∃ p ∈ doc, p.1 ∉ Benchmark.recognizedKeys) →
      ∃ rest, Benchmark.from_yaml productToCpe f id_ (some doc) product_yaml =
        .error (unparsedMsg f rest) ∧ rest ≠ []) ∧
    (∀ productToCpe f id_ doc product_yaml nm cpes,
      hasKey doc "title" → hasKey doc "status" → hasKey doc "description" →
      lookupKey doc "notice" = some (.map nm) →
      hasKey nm "id" → hasKey nm "description" →
      keysUnder nm ["id", "description"] →
      hasKey doc "front-matter" → hasKey doc "rear-matter" →
      hasKey doc "version" →
      resolveCpes productToCpe product_yaml = .ok cpes →
      keysUnder doc Benchmark.recognizedKeys →
      ∃ b, Benchmark.from_yaml productToCpe f id_ (some doc) product_yaml =
        .ok (some b)) := by
  refine ⟨?_, ?_, ?_, ?_, ?_, ?_, ?_, ?_, ?_, ?_⟩
  · intro f doc hT hD hS hLft
    obtain ⟨tv, hT⟩ := Option.isSome_iff_exists.mp hT
    obtain ⟨dv, hD⟩ := Option.isSome_iff_exists.mp hD
    obtain ⟨sv, hS⟩ := Option.isSome_iff_exists.mp hS
    obtain ⟨p, hp, hpk⟩ := hLft
    exact ⟨removeKeys doc Profile.recognizedKeys,
      Profile_from_yaml_leftover f doc tv dv sv hT hD hS
        (removeKeys_ne_nil _ doc p hp hpk),
      removeKeys_ne_nil _ doc p hp hpk⟩
  · intro f doc hT hD hS hK
    obtain ⟨tv, hT⟩ := Option.isSome_iff_exists.mp hT
    obtain ⟨dv, hD⟩ := Option.isSome_iff_exists.mp hD
    obtain ⟨sv, hS⟩ := Option.isSome_iff_exists.mp hS
    exact ⟨_, Profile_from_yaml_ok f doc tv dv sv hT hD hS hK⟩
  · intro f doc hT hD hTy hO hOp hI hW hLft
    obtain ⟨tv, hT⟩ := Option.isSome_iff_exists.mp hT
    obtain ⟨dv, hD⟩ := Option.isSome_iff_exists.mp hD
    obtain ⟨tyv, hTy⟩ := Option.isSome_iff_exists.mp hTy
    obtain ⟨ov, hO⟩ := Option.isSome_iff_exists.mp hO
    obtain ⟨op, hOp, hOp7⟩ := hOp
    obtain ⟨s, hI⟩ := hI
    obtain ⟨p, hp, hpk⟩ := hLft
    exact ⟨removeKeys doc Value.recognizedKeys,
      Value_from_yaml_leftover f doc tv dv tyv ov op s hT hD hTy hOp hOp7 hI hO
        hW (removeKeys_ne_nil _ doc p hp hpk),
      removeKeys_ne_nil _ doc p hp hpk⟩
  · intro f doc hT hD hTy hO hOp hI hW hK
    obtain ⟨tv, hT⟩ := Option.isSome_iff_exists.mp hT
    obtain ⟨dv, hD⟩ := Option.isSome_iff_exists.mp hD
    obtain ⟨tyv, hTy⟩ := Option.isSome_iff_exists.mp hTy
    obtain ⟨ov, hO⟩ := Option.isSome_iff_exists.mp hO
    obtain ⟨op, hOp, hOp7⟩ := hOp
    obtain ⟨s, hI⟩ := hI
    exact ⟨_, Value_from_yaml_ok f doc tv dv tyv ov op s hT hD hTy hOp hOp7 hI
      hO hW hK⟩
  · intro f doc hT hD hW hLft
    obtain ⟨tv, hT⟩ := Option.isSome_iff_exists.mp hT
    obtain ⟨dv, hD⟩ := Option.isSome_iff_exists.mp hD
    obtain ⟨p, hp, hpk⟩ := hLft
    exact ⟨removeKeys doc Group.recognizedKeys,
      Group_from_yaml_leftover f doc tv dv hT hD hW
        (removeKeys_ne_nil _ doc p hp hpk),
      removeKeys_ne_nil _ doc p hp hpk⟩
  · intro f doc hT hD hW hK
    obtain ⟨tv, hT⟩ := Option.isSome_iff_exists.mp hT
    obtain ⟨dv, hD⟩ := Option.isSome_iff_exists.mp hD
    exact ⟨_, Group_from_yaml_ok f doc tv dv hT hD hW hK⟩
  · intro cce f doc hT hD hR hS hW hLft
    obtain ⟨tv, hT⟩ := Option.isSome_iff_exists.mp hT
    obtain ⟨dv, hD⟩ := Option.isSome_iff_exists.mp hD
    obtain ⟨rv, hR⟩ := Option.isSome_iff_exists.mp hR
    obtain ⟨sv, hS⟩ := Option.isSome_iff_exists.mp hS
    obtain ⟨p, hp, hpk⟩ := hLft
    exact ⟨removeKeys doc Rule.recognizedKeys,
      Rule_from_yaml_leftover cce f doc tv dv rv sv hT hD hR hS hW
        (removeKeys_ne_nil _ doc p hp hpk),
      removeKeys_ne_nil _ doc p hp hpk⟩
  · intro cce f doc hT hD hR hS hW hVi hVr hK
    obtain ⟨tv, hT⟩ := Option.isSome_iff_exists.mp hT
    obtain ⟨dv, hD⟩ := Option.isSome_iff_exists.mp hD
    obtain ⟨rv, hR⟩ := Option.isSome_iff_exists.mp hR
    obtain ⟨sv, hS⟩ := Option.isSome_iff_exists.mp hS
    exact ⟨_, Rule_from_yaml_ok cce f doc tv dv rv sv hT hD hR hS hW hVi hVr hK⟩
  · intro productToCpe f id_ doc product_yaml nm hT hSt hD hN hNid hNd hNk hF
      hRr hV hLft
    obtain ⟨tv, hT⟩ := Option.isSome_iff_exists.mp hT
    obtain ⟨stv, hSt⟩ := Option.isSome_iff_exists.mp hSt
    obtain ⟨dv, hD⟩ := Option.isSome_iff_exists.mp hD
    obtain ⟨niv, hNid⟩ := Option.isSome_iff_exists.mp hNid
    obtain ⟨ndv, hNd⟩ := Option.isSome_iff_exists.mp hNd
    obtain ⟨fv, hF⟩ := Option.isSome_iff_exists.mp hF
    obtain ⟨rv, hRr⟩ := Option.isSome_iff_exists.mp hRr
    obtain ⟨vv, hV⟩ := Option.isSome_iff_exists.mp hV
    obtain ⟨p, hp, hpk⟩ := hLft
    exact ⟨removeKeys doc Benchmark.recognizedKeys,
      Benchmark_from_yaml_leftover productToCpe f id_ doc product_yaml nm tv
        stv dv niv ndv fv rv vv hT hSt hD hN hNid hNd hNk hF hRr hV
        (removeKeys_ne_nil _ doc p hp hpk),
      removeKeys_ne_nil _ doc p hp hpk⟩
  · intro productToCpe f id_ doc product_yaml nm cpes hT hSt hD hN hNid hNd hNk
      hF hRr hV hC hK
    obtain ⟨tv, hT⟩ := Option.isSome_iff_exists.mp hT
    obtain ⟨stv, hSt⟩ := Option.isSome_iff_exists.mp hSt
    obtain ⟨dv, hD⟩ := Option.isSome_iff_exists.mp hD
    obtain ⟨niv, hNid⟩ := Option.isSome_iff_exists.mp hNid
    obtain ⟨ndv, hNd⟩ := Option.isSome_iff_exists.mp hNd
    obtain ⟨fv, hF⟩ := Option.isSome_iff_exists.mp hF
    obtain ⟨rv, hRr⟩ := Option.isSome_iff_exists.mp hRr
    obtain ⟨vv, hV⟩ := Option.isSome_iff_exists.mp hV
    exact ⟨_, Benchmark_from_yaml_ok productToCpe f id_ doc product_yaml nm tv
      stv dv niv ndv fv rv vv cpes hT hSt hD hN hNid hNd hNk hF hRr hV hC hK⟩

/-- A well-formed Value descriptor: all required fields, no extras. -/
def c1GoodDoc : Doc :=
  [("title", .str "T"), ("description", .str "D"), ("type", .str "string"),
   ("options", .map [("default", .str "1")])]

/-- C1, witness: the amended claim applied at concrete descriptors — the
    well-formed Value descriptor parses, and the same descriptor with one
    unrecognized key fails with the closed-schema error. -/
theorem claim_C1_witness :
    (∃ v, Value.from_yaml "memory.var" (some c1GoodDoc) = .ok (some v)) ∧
    (∃ rest, Value.from_yaml "memory.var"
        (some (c1GoodDoc ++ [("bogus_key", .str "x")])) =
      .error (unparsedMsg "memory.var" rest) ∧ rest ≠ []) :=
  ⟨claim_C1.2.2.2.1 "memory.var" c1GoodDoc (by decide) (by decide) (by decide)
    (by decide) ⟨"equals", by rfl, by decide⟩ ⟨"false", by rfl⟩ (by rfl)
    (by decide),
   claim_C1.2.2.1 "memory.var" (c1GoodDoc ++ [("bogus_key", .str "x")])
    (by decide) (by decide) (by decide) (by decide)
    ⟨"equals", by rfl, by decide⟩ ⟨"false", by rfl⟩ (by rfl)
    ⟨("bogus_key", .str "x"),
     List.mem_append_right _ (List.mem_singleton_self _), by decide⟩⟩

/-! Claim C9. -/

/-- C9: on every Benchmark and every Group, add_value, add_group and
    add_rule called with None return the container unchanged — no error, and
    every values/groups/rules map (and any child's pushed-down platform
    state) is exactly as before. -/
theorem claim_C9 :
    (∀ b : Benchmark, b.add_value none = b ∧ b.add_group none = b ∧
      b.add_rule none = b) ∧
    (∀ g : Group, g.add_value none = g ∧ g.add_group none = g ∧
      g.add_rule none = g) :=
  ⟨fun _ => ⟨rfl, rfl, rfl⟩, fun _ => ⟨rfl, rfl, rfl⟩⟩

/-! Claim C7. -/

theorem Value_from_yaml_bad_operator (f : String) (doc : Doc) (op : String)
    (hOp : (lookupKey doc "operator").getD (.str "equals") = .str op)
    (hOp7 : op ∉ possible_operators) :
    ∃ e, Value.from_yaml f (some doc) = .error e := by
  simp only [Value.from_yaml, required_key, popKey]
  cases hT : lookupKey doc "title" with
  | none => exact ⟨_, rfl⟩
  | some tv =>
    cases hD : lookupKey (removeKey doc "title") "description" with
    | none => exact ⟨_, rfl⟩
    | some dv =>
      cases hTy : lookupKey (removeKey (removeKey doc "title") "description")
          "type" with
      | none => exact ⟨_, rfl⟩
      | some tyv =>
        have hOp' : lookupKey (removeKey (removeKey (removeKey doc "title")
            "description") "type") "operator" = lookupKey doc "operator" := by
          rw [lookupKey_removeKey_ne _ _ _ (by decide),
              lookupKey_removeKey_ne _ _ _ (by decide),
              lookupKey_removeKey_ne _ _ _ (by decide)]
        rw [hOp', hOp]
        simp only [checkOperator]
        have : possible_operators.contains op = false := by
          simpa using hOp7
        rw [this]
        exact ⟨_, rfl⟩

/-- C7: parsing a Value fails whenever the operator field holds a string
    outside the seven enumerated operators; each of the seven succeeds (on
    an otherwise well-formed descriptor), storing that operator; and the
    rendered Value carries an operator attribute exactly when the operator
    is not "equals". -/
theorem claim_C7 :
    (∀ f doc op, lookupKey doc "operator" = some (.str op) →
      op ∉ possible_operators →
      ∃ e, Value.from_yaml f (some doc) = .error e) ∧
    (∀ op, op ∈ possible_operators →
      ∀ f doc tv dv tyv ov s,
      lookupKey doc "title" = some tv →
      lookupKey doc "description" = some dv →
      lookupKey doc "type" = some tyv →
      lookupKey doc "operator" = some (.str op) →
      (lookupKey doc "interactive").getD (.str "false") = .str s →
      lookupKey doc "options" = some ov →
      checkWarnings ((lookupKey doc "warnings").getD (.list [])) = .ok () →
      keysUnder doc Value.recognizedKeys →
      ∃ v, Value.from_yaml f (some doc) = .ok (some v) ∧ v.operator = op) ∧
    (∀ (v : Value) (ws : List Xml) (opts : List (String × YamlValue)),
      warningElems v.warnings = .ok ws → v.options = .map opts →
      ∃ xml, Value.to_xml_element v = .ok xml ∧
        xml.getAttr "operator" =
          (if v.operator == "equals" then none else some v.operator)) := by
  refine ⟨?_, ?_, ?_⟩
  · intro f doc op hOp hOp7
    exact Value_from_yaml_bad_operator f doc op (by rw [hOp]; rfl) hOp7
  · intro op hOp7 f doc tv dv tyv ov s hT hD hTy hOp hI hO hW hK
    exact ⟨_, Value_from_yaml_ok f doc tv dv tyv ov op s hT hD hTy
      (by rw [hOp]; rfl) hOp7 hI hO hW hK, rfl⟩
  · intro v ws opts hW hO
    refine ⟨Xml.elem "Value" (valueAttrs v) ""
        ([Xml.elem "title" [] (pyStr v.title) [],
          add_sub_element_child "description" (pyStr v.description)] ++ ws ++
         valueOptionElems opts),
      by simp only [Value.to_xml_element, hW, hO], ?_⟩
    simp only [Xml.getAttr, Xml.attrs, valueAttrs]
    cases hEq : v.operator == "equals" with
    | true =>
      cases hInt : v.interactive with
      | true => simp [assocSet]
      | false => simp [assocSet]
    | false =>
      cases hInt : v.interactive with
      | true => simp [assocSet]
      | false => simp [assocSet]

/-- A Value descriptor using the non-default operator "not equal". -/
def c7Doc : Doc :=
  [("title", .str "T"), ("description", .str "D"), ("type", .str "number"),
   ("operator", .str "not equal"), ("options", .map [("default", .str "1")])]

/-- A Value descriptor whose operator is outside the seven enumerated
    operators. -/
def c7BadDoc : Doc :=
  [("title", .str "T"), ("description", .str "D"), ("type", .str "number"),
   ("operator", .str "wrong"), ("options", .map [("default", .str "1")])]

/-- C7, witness: the claim applied at concrete descriptors — the operator
    "wrong" fails, the operator "not equal" parses and is stored. -/
theorem claim_C7_witness :
    (∃ e, Value.from_yaml "x.var" (some c7BadDoc) = .error e) ∧
    (∃ v, Value.from_yaml "x.var" (some c7Doc) = .ok (some v) ∧
      v.operator = "not equal") :=
  ⟨claim_C7.1 "x.var" c7BadDoc "wrong" (by rfl) (by decide),
   claim_C7.2.1 "not equal" (by decide) "x.var" c7Doc (.str "T") (.str "D")
     (.str "number") (.map [("default", .str "1")]) "false" (by rfl) (by rfl)
     (by rfl) (by rfl) (by rfl) (by rfl) (by rfl) (by decide)⟩

/-! Claim C4. -/

theorem selectionsElems_strs (ss : List String) :
    selectionsElems (.list (ss.map .str)) = .ok (ss.map selectionDirective) := by
  induction ss with
  | nil => rfl
  | cons s rest ih =>
    simp only [selectionsElems] at ih
    simp only [selectionsElems, List.map_cons, List.mapM_cons, ih]
    rfl

/-- C4: rendering a Profile emits exactly one directive per selection, in
    source order, with no deduplication; a leading "!" yields an unselect
    directive for the rest of the string, otherwise a string containing "="
    is split at its first "=" into a refine-value directive (idref,
    selector), and any other string yields a select directive. -/
theorem claim_C4 :
    ∀ (p : Profile) (ss : List String), p.selections = .list (ss.map .str) →
      (Profile.to_xml_element p =
        .ok (.elem "Profile" (profileAttrs p) ""
          ([Xml.elem "title" [("override", "true")] (pyStr p.title) [],
            Xml.elem "description" [("override", "true")]
              (pyStr p.description) []]
           ++ ss.map selectionDirective))) ∧
      ∀ s : String,
        (s.startsWith "!" = true →
          selectionDirective s =
            .elem "select" [("idref", s.drop 1), ("selected", "false")] "" []) ∧
        (s.startsWith "!" = false → pyInChar '=' s = true →
          selectionDirective s =
            .elem "refine-value" [("idref", (splitOnce s '=').1),
                                  ("selector", (splitOnce s '=').2)] "" []) ∧
        (s.startsWith "!" = false → pyInChar '=' s = false →
          selectionDirective s =
            .elem "select" [("idref", s), ("selected", "true")] "" []) := by
  intro p ss h
  constructor
  · simp only [Profile.to_xml_element, h, selectionsElems_strs]
  · intro s
    refine ⟨fun h1 => ?_, fun h1 h2 => ?_, fun h1 h2 => ?_⟩
    · simp [selectionDirective, h1]
    · simp [selectionDirective, h1, h2]
    · simp [selectionDirective, h1, h2]

/-- A Profile with one directive of each kind. -/
def c4Profile : Profile :=
  { id_ := "p", title := .str "t", description := .str "d", extends_ := .null,
    selections := .list [.str "!rule_a", .str "val_b=state", .str "rule_c"] }

/-- C4, witness: the claim applied at a concrete Profile — one unselect, one
    refine-value and one select directive, in source order. -/
theorem claim_C4_witness :
    Profile.to_xml_element c4Profile =
      .ok (.elem "Profile" (profileAttrs c4Profile) ""
        ([Xml.elem "title" [("override", "true")] (pyStr c4Profile.title) [],
          Xml.elem "description" [("override", "true")]
            (pyStr c4Profile.description) []]
         ++ ["!rule_a", "val_b=state", "rule_c"].map selectionDirective)) :=
  (claim_C4 c4Profile ["!rule_a", "val_b=state", "rule_c"] rfl).1

/-! Claim C2. -/

theorem validateIdentEntries_ok (cce : String → Bool) (f : String) :
    ∀ (m : List (String × YamlValue)),
    validateIdentEntries cce f m = .ok () →
    ∀ p ∈ m, ∃ s, p.2 = .str s ∧ pyStrip s ≠ "" ∧
      (p.1.take 3 = "cce" → cce ("CCE-" ++ s) = true)
  | [], _, p, hp => absurd hp (List.not_mem_nil p)
  | (qk, qv) :: rest, h, p, hp => by
    cases qv with
    | str s =>
      simp only [validateIdentEntries] at h
      by_cases h1 : (pyStrip s == "") = true
      · rw [if_pos h1] at h; exact absurd h (by simp)
      · rw [if_neg h1] at h
        by_cases h2 : (qk.take 3 == "cce" && !cce ("CCE-" ++ s)) = true
        · rw [if_pos h2] at h; exact absurd h (by simp)
        · rw [if_neg h2] at h
          rcases List.mem_cons.mp hp with hph | hpr
          · subst hph
            refine ⟨s, rfl, by simpa using h1, fun hcce => ?_⟩
            simp only [Bool.and_eq_true, beq_iff_eq, Bool.not_eq_true',
              not_and] at h2
            have h3 := h2 hcce
            cases hc : cce ("CCE-" ++ s) with
            | true => rfl
            | false => exact absurd hc h3
          · exact validateIdentEntries_ok cce f rest h p hpr
    | int n => simp only [validateIdentEntries] at h; exact absurd h (by simp)
    | null => simp only [validateIdentEntries] at h; exact absurd h (by simp)
    | list xs => simp only [validateIdentEntries] at h; exact absurd h (by simp)
    | map mm => simp only [validateIdentEntries] at h; exact absurd h (by simp)

theorem Rule_from_yaml_ok_inv (cce : String → Bool) (f : String) (doc : Doc)
    (r : Rule) (h : Rule.from_yaml cce f (some doc) = .ok (some r)) :
    Rule.validate_identifiers cce f r.identifiers = .ok () ∧
    Rule.validate_references f r.references = .ok () := by
  simp only [Rule.from_yaml, popKey] at h
  repeat' split at h
  all_goals try exact (Except.noConfusion h)
  injection h with h1
  injection h1 with h2
  subst h2
  constructor <;> simp_all

/-- A Rule descriptor with no identifiers section at all. -/
def c2Doc : Doc :=
  [("title", .str "T"), ("description", .str "D"), ("rationale", .str "R"),
   ("severity", .str "low")]

/-- C2, counterexample: a Rule descriptor without an identifiers key parses
    successfully with an empty identifiers mapping — zero identifier
    entries, refuting the claim that every successfully parsed Rule carries
    at least one identifier entry (and Group objects carry no identifiers
    section at all). -/
theorem claim_C2_counterexample :
    ∃ r, Rule.from_yaml (fun _ => true) "x.rule" (some c2Doc) = .ok (some r) ∧
      r.identifiers = .map [] :=
  ⟨_, by rfl, rfl⟩

/-- C2 (amended): every successfully parsed Rule has a mapping identifiers
    section (possibly empty; only an explicit null is rejected), whose
    entries each carry a string key and a string value that is non-blank
    after whitespace trimming, and every identifier whose type begins with
    "cce" has a value the external CCE checker accepts once prefixed with
    "CCE-".  Group objects have no identifiers section, so no identifier
    requirement applies to them. -/
theorem claim_C2 :
    ∀ (cce : String → Bool) (f : String) (doc : Doc) (r : Rule),
      Rule.from_yaml cce f (some doc) = .ok (some r) →
      ∃ m, r.identifiers = .map m ∧
        ∀ p ∈ m, ∃ s, p.2 = .str s ∧ pyStrip s ≠ "" ∧
          (p.1.take 3 = "cce" → cce ("CCE-" ++ s) = true) := by
  intro cce f doc r h
  have hv := (Rule_from_yaml_ok_inv cce f doc r h).1
  cases hid : r.identifiers with
  | map m =>
    rw [hid] at hv
    exact ⟨m, rfl, validateIdentEntries_ok cce f m hv⟩
  | str s => rw [hid] at hv; exact absurd hv (by simp [Rule.validate_identifiers])
  | int n => rw [hid] at hv; exact absurd hv (by simp [Rule.validate_identifiers])
  | null => rw [hid] at hv; exact absurd hv (by simp [Rule.validate_identifiers])
  | list xs => rw [hid] at hv; exact absurd hv (by simp [Rule.validate_identifiers])

/-- A Rule descriptor carrying one cce-typed and one plain identifier. -/
def c2IdentDoc : Doc :=
  [("title", .str "T"), ("description", .str "D"), ("rationale", .str "R"),
   ("severity", .str "low"),
   ("identifiers", .map [("cce@rhel7", .str "27002-5"), ("custom", .str "abc")])]

/-- The Rule the c2IdentDoc descriptor parses to. -/
def c2Rule : Rule :=
  { id_ := ruleIdOf "x.rule", prodtype := .str "all", title := .str "T",
    description := .str "D", rationale := .str "R", severity := .str "low",
    references := .map [],
    identifiers := .map [("cce@rhel7", .str "27002-5"), ("custom", .str "abc")],
    ocil_clause := .null, ocil := .null, external_oval := .null,
    warnings := .list [], platform := .null }

/-- C2, witness: the amended claim applied at a concrete Rule descriptor
    whose identifiers all validate. -/
theorem claim_C2_witness :
    ∃ m, c2Rule.identifiers = .map m ∧
      ∀ p ∈ m, ∃ s, p.2 = .str s ∧ pyStrip s ≠ "" ∧
        (p.1.take 3 = "cce" → true = true) :=
  claim_C2 (fun _ => true) "x.rule" c2IdentDoc c2Rule (by rfl)

/-! Claims C3, C5, C6: Rule rendering. -/

/-- Python dict lookup on the id-keyed entity maps and attribute lists. -/
def assocGet {α : Type} (m : List (String × α)) (k : String) : Option α :=
  (m.find? (fun p => p.1 == k)).map (fun p => p.2)

theorem assocGet_assocSet {α : Type} (m : List (String × α)) (k : String) (v : α) :
    assocGet (assocSet m k v) k = some v := by
  induction m with
  | nil => simp [assocSet, assocGet]
  | cons p rest ih =>
    obtain ⟨pk, pv⟩ := p
    by_cases h : pk = k
    · simp [assocSet, assocGet, h]
    · rw [assocSet, if_neg h]
      show assocGet ((pk, pv) :: assocSet rest k v) k = some v
      rw [assocGet, List.find?_cons_of_neg _ (by simpa using h)]
      exact ih

theorem splitOnce_of_two (k : String) (sep : Char) (a b : String)
    (h : pySplit k sep = [a, b]) : splitOnce k sep = (a, b) := by
  simp [splitOnce, h, joinChar]

/-- A product-qualified identifier/reference element: an attribute named
    after the policy part of the key carrying the entry's value, and a
    prodtype attribute equal to the product part. -/
def qualElem (tagName k : String) (v : YamlValue) : Xml :=
  Xml.elem tagName
    [((splitOnce k '@').1, pyStr v), ("prodtype", (splitOnce k '@').2)] "" []

/-- The separate elements the qualified entries of an identifier/reference
    mapping render to, in encounter order. -/
def qualElems (tagName : String) (m : List (String × YamlValue)) : List Xml :=
  m.filterMap (fun p =>
    if pyInChar '@' p.1 then some (qualElem tagName p.1 p.2) else none)

/-- The attribute accumulation the unqualified entries of an identifier/
    reference mapping perform on the shared element. -/
def mainFold (attrs : List (String × String)) :
    List (String × YamlValue) → List (String × String)
  | [] => attrs
  | (k, v) :: rest =>
    if pyInChar '@' k then mainFold attrs rest
    else mainFold (assocSet attrs k (pyStr v)) rest

theorem identRefPass_eq (tagName : String) (m : List (String × YamlValue))
    (els : List Xml) (attrs : List (String × String))
    (hwf : ∀ p ∈ m, pyInChar '@' p.1 = true → (pySplit p.1 '@').length = 2) :
    identRefPass tagName m els attrs =
      .ok (els ++ qualElems tagName m, mainFold attrs m) := by
  induction m generalizing els attrs with
  | nil => simp [identRefPass, qualElems, mainFold]
  | cons q rest ih =>
    obtain ⟨k, v⟩ := q
    by_cases hk : pyInChar '@' k = true
    · have h2 : (pySplit k '@').length = 2 := hwf (k, v) (by simp) hk
      obtain ⟨a, b, hab⟩ := List.length_eq_two.mp h2
      rw [identRefPass, if_pos hk, hab]
      show identRefPass tagName rest
          (els ++ [Xml.elem tagName [(a, pyStr v), ("prodtype", b)] "" []])
          attrs =
        .ok (els ++ qualElems tagName ((k, v) :: rest),
             mainFold attrs ((k, v) :: rest))
      rw [ih _ _ (fun p hp hq => hwf p (by simp [hp]) hq)]
      have hq : qualElem tagName k v =
          Xml.elem tagName [(a, pyStr v), ("prodtype", b)] "" [] := by
        simp [qualElem, splitOnce_of_two k '@' a b hab]
      simp [qualElems, mainFold, hk, hq, List.filterMap_cons,
        List.append_assoc]
    · have hk' : pyInChar '@' k = false := by
        cases hc : pyInChar '@' k with
        | true => exact absurd hc hk
        | false => rfl
      rw [identRefPass, if_neg hk]
      rw [ih _ _ (fun p hp hq => hwf p (by simp [hp]) hq)]
      simp [qualElems, mainFold, hk', List.filterMap_cons]

theorem assocSet_append_of_not_mem {α : Type} (m : List (String × α))
    (k : String) (v : α) (h : k ∉ m.map (fun p => p.1)) :
    assocSet m k v = m ++ [(k, v)] := by
  induction m with
  | nil => simp [assocSet]
  | cons p rest ih =>
    obtain ⟨pk, pv⟩ := p
    simp only [List.map_cons, List.mem_cons, not_or] at h
    have hne : ¬pk = k := fun he => h.1 he.symm
    rw [assocSet, if_neg hne, ih h.2]
    simp

theorem mainFold_eq (m : List (String × YamlValue))
    (attrs : List (String × String))
    (hnd : (m.map (fun p => p.1)).Nodup)
    (hfresh : ∀ p ∈ m, p.1 ∉ attrs.map (fun q => q.1)) :
    mainFold attrs m =
      attrs ++ (m.filter (fun p => !pyInChar '@' p.1)).map
        (fun p => (p.1, pyStr p.2)) := by
  induction m generalizing attrs with
  | nil => simp [mainFold]
  | cons q rest ih =>
    obtain ⟨k, v⟩ := q
    simp only [List.map_cons, List.nodup_cons] at hnd
    by_cases hk : pyInChar '@' k = true
    · rw [mainFold, if_pos hk]
      rw [ih attrs hnd.2 (fun p hp => hfresh p (by simp [hp]))]
      simp [List.filter_cons, hk]
    · have hk' : pyInChar '@' k = false := by
        cases hc : pyInChar '@' k with
        | true => exact absurd hc hk
        | false => rfl
      rw [mainFold, if_neg hk]
      rw [assocSet_append_of_not_mem attrs k (pyStr v)
        (hfresh (k, v) (by simp))]
      rw [ih (attrs ++ [(k, pyStr v)]) hnd.2 ?_]
      · simp [List.filter_cons, hk']
      · intro p hp
        simp only [List.map_append, List.mem_append, not_or, List.map_cons,
          List.map_nil, List.mem_singleton]
        constructor
        · exact hfresh p (by simp [hp])
        · intro he
          apply hnd.1
          rw [← he]
          exact List.mem_map_of_mem (fun q => q.1) hp

/-- The decomposition of a rendered Rule into its fixed-order segments,
    given well-formed identifier/reference keys, renderable warnings, and a
    resolvable platform. -/
theorem Rule_to_xml_decomp (cpeTable : List (String × String)) (r : Rule)
    (mi mr : List (String × YamlValue)) (ws ps : List Xml)
    (hI : r.identifiers = .map mi) (hR : r.references = .map mr)
    (hwfI : ∀ p ∈ mi, pyInChar '@' p.1 = true → (pySplit p.1 '@').length = 2)
    (hwfR : ∀ p ∈ mr, pyInChar '@' p.1 = true → (pySplit p.1 '@').length = 2)
    (hW : warningElems r.warnings = .ok ws)
    (hP : platformSeg cpeTable r.platform r.id_ = .ok ps) :
    Rule.to_xml_element cpeTable r = .ok (.elem "Rule" (ruleAttrs r) ""
      ([add_sub_element_child "title" (pyStr r.title),
        add_sub_element_child "description" (pyStr r.description),
        add_sub_element_child "rationale" (pyStr r.rationale)]
       ++ qualElems "ident" mi ++ sharedElemSeg "ident" (mainFold [] mi)
       ++ qualElems "ref" mr ++ sharedElemSeg "ref" (mainFold [] mr)
       ++ ruleCheckSeg r ++ ruleOcilSeg r ++ ws ++ ps)) := by
  simp only [Rule.to_xml_element, identRefSeg, hI, hR,
    identRefPass_eq "ident" mi [] [] hwfI, identRefPass_eq "ref" mr [] [] hwfR,
    hW, hP]
  simp

theorem Group_withPlatform_id (c : Group) (pl : YamlValue) :
    (c.withPlatform pl).id_ = c.id_ := by
  cases c; rfl

theorem Group_add_rule_get (g : Group) (r : Rule) :
    assocGet (g.add_rule (some r)).rules r.id_ =
      some (if pyTruthy g.platform && !pyTruthy r.platform
            then { r with platform := g.platform } else r) := by
  cases g with
  | mk i p t d w vs gs rs pl =>
    simp only [Group.add_rule, Group.rules, Group.platform]
    by_cases hc : (pyTruthy pl && !pyTruthy r.platform) = true
    · simp only [hc, if_pos]
      exact assocGet_assocSet rs r.id_ _
    · simp only [Bool.not_eq_true] at hc
      simp only [hc, Bool.false_eq_true, if_false]
      exact assocGet_assocSet rs r.id_ r

theorem Group_add_group_get (g c : Group) :
    assocGet (g.add_group (some c)).groups c.id_ =
      some (if pyTruthy g.platform && !pyTruthy c.platform
            then c.withPlatform g.platform else c) := by
  cases g with
  | mk i p t d w vs gs rs pl =>
  cases c with
  | mk ci cp ct cd cw cvs cgs crs cpl =>
    simp only [Group.add_group, Group.groups, Group.platform,
      Group.withPlatform, Group.id_]
    by_cases hc : (pyTruthy pl && !pyTruthy cpl) = true
    · simp only [hc, if_pos]
      exact assocGet_assocSet gs ci _
    · simp only [Bool.not_eq_true] at hc
      simp only [hc, Bool.false_eq_true, if_false]
      exact assocGet_assocSet gs ci _

/-- C3: a Group with a truthy platform pushes it, at the moment of
    insertion, onto a child Rule or Group that lacks one (add_rule /
    add_group); a child that declares its own platform keeps it; and a Rule
    so pushed renders a platform element whose idref is the CPE the table
    maps the parent's platform name to. -/
theorem claim_C3 :
    (∀ (g : Group) (r : Rule), pyTruthy g.platform = true →
      pyTruthy r.platform = false →
      assocGet (g.add_rule (some r)).rules r.id_ =
        some { r with platform := g.platform }) ∧
    (∀ (g c : Group), pyTruthy g.platform = true →
      pyTruthy c.platform = false →
      assocGet (g.add_group (some c)).groups c.id_ =
        some (c.withPlatform g.platform)) ∧
    (∀ (g : Group) (r : Rule), pyTruthy r.platform = true →
      assocGet (g.add_rule (some r)).rules r.id_ = some r) ∧
    (∀ (g c : Group), pyTruthy c.platform = true →
      assocGet (g.add_group (some c)).groups c.id_ = some c) ∧
    (∀ (cpeTable : List (String × String)) (g : Group) (r : Rule)
        (P cpe : String) (mi mr : List (String × YamlValue)) (ws : List Xml),
      g.platform = .str P → pyTruthy r.platform = false →
      r.identifiers = .map mi → r.references = .map mr →
      (∀ p ∈ mi, pyInChar '@' p.1 = true → (pySplit p.1 '@').length = 2) →
      (∀ p ∈ mr, pyInChar '@' p.1 = true → (pySplit p.1 '@').length = 2) →
      warningElems r.warnings = .ok ws →
      P ≠ "" → assocGet cpeTable P = some cpe →
      ∃ r' children,
        assocGet (g.add_rule (some r)).rules r.id_ = some r' ∧
        Rule.to_xml_element cpeTable r' =
          .ok (.elem "Rule" (ruleAttrs r') "" children) ∧
        Xml.elem "platform" [("idref", cpe)] "" [] ∈ children) := by
  refine ⟨?_, ?_, ?_, ?_, ?_⟩
  · intro g r hg hr
    rw [Group_add_rule_get, hg, hr]
    rfl
  · intro g c hg hc
    rw [Group_add_group_get, hg, hc]
    rfl
  · intro g r hr
    rw [Group_add_rule_get, hr]
    simp
  · intro g c hc
    rw [Group_add_group_get, hc]
    simp
  · intro cpeTable g r P cpe mi mr ws hgP hr hI hR hwfI hwfR hW hPne hcpe
    have hg : pyTruthy g.platform = true := by
      rw [hgP]
      simpa [pyTruthy] using hPne
    have h1 : assocGet (g.add_rule (some r)).rules r.id_ =
        some { r with platform := g.platform } := by
      rw [Group_add_rule_get, hg, hr]
      rfl
    have hps : platformSeg cpeTable ({ r with platform := g.platform } :
        Rule).platform ({ r with platform := g.platform } : Rule).id_ =
        .ok [Xml.elem "platform" [("idref", cpe)] "" []] := by
      simp only [hgP]
      rw [platformSeg]
      have : pyTruthy (YamlValue.str P) = true := by
        simpa [pyTruthy] using hPne
      rw [if_pos this]
      have hfind : ((cpeTable.find? (fun p => p.1 == P)).map
          (fun p => p.2)) = some cpe := hcpe
      simp only [hfind]
    have hdecomp := Rule_to_xml_decomp cpeTable
      { r with platform := g.platform } mi mr ws
      [Xml.elem "platform" [("idref", cpe)] "" []]
      (by simpa using hI) (by simpa using hR) hwfI hwfR (by simpa using hW)
      hps
    refine ⟨{ r with platform := g.platform }, _, h1, hdecomp, ?_⟩
    simp

/-- A Group carrying the platform "machine". -/
def c3Group : Group :=
  .mk "g" (.str "all") (.str "t") (.str "d") (.list []) [] [] [] (.str "machine")

/-- A Rule with no platform of its own. -/
def c3Rule : Rule :=
  { id_ := "r", prodtype := .str "all", title := .str "t",
    description := .str "d", rationale := .str "ra", severity := .str "low",
    references := .map [], identifiers := .map [], ocil_clause := .null,
    ocil := .null, external_oval := .null, warnings := .list [],
    platform := .null }

/-- C3, witness: the claim applied at a concrete parent Group and child
    Rule — the inserted rule renders a platform element with the CPE mapped
    from the parent's platform. -/
theorem claim_C3_witness :
    ∃ r' children,
      assocGet (c3Group.add_rule (some c3Rule)).rules c3Rule.id_ = some r' ∧
      Rule.to_xml_element [("machine", "cpe:/a:machine")] r' =
        .ok (.elem "Rule" (ruleAttrs r') "" children) ∧
      Xml.elem "platform" [("idref", "cpe:/a:machine")] "" [] ∈ children :=
  claim_C3.2.2.2.2 [("machine", "cpe:/a:machine")] c3Group c3Rule "machine"
    "cpe:/a:machine" [] [] [] rfl rfl rfl rfl (by simp) (by simp) rfl
    (by decide) rfl

/-- C5: with well-formed identifier/reference keys and no duplicate keys, a
    rendered Rule places one separate element per product-qualified entry
    (policy attribute with the value, prodtype attribute with the product),
    merges all unqualified entries as attributes of one shared ident (resp.
    ref) element appended only when it has at least one attribute, and the
    shared attributes are exactly the unqualified entries in order. -/
theorem claim_C5 :
    ∀ (cpeTable : List (String × String)) (r : Rule)
      (mi mr : List (String × YamlValue)) (ws ps : List Xml),
      r.identifiers = .map mi → r.references = .map mr →
      (∀ p ∈ mi, pyInChar '@' p.1 = true → (pySplit p.1 '@').length = 2) →
      (∀ p ∈ mr, pyInChar '@' p.1 = true → (pySplit p.1 '@').length = 2) →
      (mi.map (fun p => p.1)).Nodup → (mr.map (fun p => p.1)).Nodup →
      warningElems r.warnings = .ok ws →
      platformSeg cpeTable r.platform r.id_ = .ok ps →
      Rule.to_xml_element cpeTable r = .ok (.elem "Rule" (ruleAttrs r) ""
        ([add_sub_element_child "title" (pyStr r.title),
          add_sub_element_child "description" (pyStr r.description),
          add_sub_element_child "rationale" (pyStr r.rationale)]
         ++ qualElems "ident" mi ++ sharedElemSeg "ident" (mainFold [] mi)
         ++ qualElems "ref" mr ++ sharedElemSeg "ref" (mainFold [] mr)
         ++ ruleCheckSeg r ++ ruleOcilSeg r ++ ws ++ ps)) ∧
      mainFold [] mi = (mi.filter (fun p => !pyInChar '@' p.1)).map
        (fun p => (p.1, pyStr p.2)) ∧
      mainFold [] mr = (mr.filter (fun p => !pyInChar '@' p.1)).map
        (fun p => (p.1, pyStr p.2)) := by
  intro cpeTable r mi mr ws ps hI hR hwfI hwfR hndI hndR hW hP
  refine ⟨Rule_to_xml_decomp cpeTable r mi mr ws ps hI hR hwfI hwfR hW hP,
    ?_, ?_⟩
  · simpa using mainFold_eq mi [] hndI (by simp)
  · simpa using mainFold_eq mr [] hndR (by simp)

/-- A Rule with one qualified and one unqualified identifier and an
    unqualified reference. -/
def c5Rule : Rule :=
  { c3Rule with
      identifiers := .map [("stigid@productA", .str "SV-1"), ("custom", .str "abc")],
      references := .map [("nist", .str "AC-1")] }

/-- C5, witness: the claim applied at a concrete Rule — the qualified
    identifier becomes its own prodtype-bearing element, the unqualified
    entries merge onto the shared elements. -/
theorem claim_C5_witness :
    Rule.to_xml_element [] c5Rule = .ok (.elem "Rule" (ruleAttrs c5Rule) ""
      ([add_sub_element_child "title" (pyStr c5Rule.title),
        add_sub_element_child "description" (pyStr c5Rule.description),
        add_sub_element_child "rationale" (pyStr c5Rule.rationale)]
       ++ qualElems "ident" [("stigid@productA", .str "SV-1"), ("custom", .str "abc")]
       ++ sharedElemSeg "ident"
           (mainFold [] [("stigid@productA", .str "SV-1"), ("custom", .str "abc")])
       ++ qualElems "ref" [("nist", .str "AC-1")]
       ++ sharedElemSeg "ref" (mainFold [] [("nist", .str "AC-1")])
       ++ ruleCheckSeg c5Rule ++ ruleOcilSeg c5Rule ++ [] ++ [])) ∧
    mainFold [] [("stigid@productA", .str "SV-1"), ("custom", .str "abc")] =
      [("custom", pyStr (.str "abc"))] ∧
    mainFold [] [("nist", .str "AC-1")] = [("nist", pyStr (.str "AC-1"))] :=
  claim_C5 [] c5Rule
    [("stigid@productA", .str "SV-1"), ("custom", .str "abc")]
    [("nist", .str "AC-1")] [] [] rfl rfl (by decide) (by decide) (by decide)
    (by decide) rfl rfl

/-- C6: a Rule without an external-OVAL reference renders a synthetic OVAL
    pointer whose id is the rule's own id; a Rule with a (non-empty)
    external-OVAL reference renders a check element carrying a
    check-content-ref with that href instead. -/
theorem claim_C6 :
    ∀ (cpeTable : List (String × String)) (r : Rule)
      (mi mr : List (String × YamlValue)) (ws ps : List Xml),
      r.identifiers = .map mi → r.references = .map mr →
      (∀ p ∈ mi, pyInChar '@' p.1 = true → (pySplit p.1 '@').length = 2) →
      (∀ p ∈ mr, pyInChar '@' p.1 = true → (pySplit p.1 '@').length = 2) →
      warningElems r.warnings = .ok ws →
      platformSeg cpeTable r.platform r.id_ = .ok ps →
      (r.external_oval = .null →
        ∃ children, Rule.to_xml_element cpeTable r =
          .ok (.elem "Rule" (ruleAttrs r) "" children) ∧
          Xml.elem "oval" [("id", r.id_)] "" [] ∈ children) ∧
      (∀ href, r.external_oval = .str href → href ≠ "" →
        ∃ children, Rule.to_xml_element cpeTable r =
          .ok (.elem "Rule" (ruleAttrs r) "" children) ∧
          Xml.elem "check"
            [("system", "http://oval.mitre.org/XMLSchema/oval-definitions-5")]
            "" [Xml.elem "check-content-ref" [("href", href)] "" []]
            ∈ children) := by
  intro cpeTable r mi mr ws ps hI hR hwfI hwfR hW hP
  have hdecomp := Rule_to_xml_decomp cpeTable r mi mr ws ps hI hR hwfI hwfR hW hP
  constructor
  · intro hoval
    refine ⟨_, hdecomp, ?_⟩
    have hcheck : ruleCheckSeg r = [Xml.elem "oval" [("id", r.id_)] "" []] := by
      simp [ruleCheckSeg, hoval, pyTruthy]
    simp [hcheck]
  · intro href hoval hne
    refine ⟨_, hdecomp, ?_⟩
    have hcheck : ruleCheckSeg r =
        [Xml.elem "check"
          [("system", "http://oval.mitre.org/XMLSchema/oval-definitions-5")]
          "" [Xml.elem "check-content-ref" [("href", href)] "" []]] := by
      simp [ruleCheckSeg, hoval, pyTruthy, hne, pyStr]
    simp [hcheck]

/-- A Rule with an external-OVAL reference. -/
def c6Rule : Rule :=
  { c3Rule with external_oval := .str "oval-unix.xml" }

/-- C6, witness: the claim applied at concrete Rules — without an external
    reference the synthetic self-referencing OVAL pointer appears, with one
    the check-content-ref appears. -/
theorem claim_C6_witness :
    (∃ children, Rule.to_xml_element [] c3Rule =
      .ok (.elem "Rule" (ruleAttrs c3Rule) "" children) ∧
      Xml.elem "oval" [("id", c3Rule.id_)] "" [] ∈ children) ∧
    (∃ children, Rule.to_xml_element [] c6Rule =
      .ok (.elem "Rule" (ruleAttrs c6Rule) "" children) ∧
      Xml.elem "check"
        [("system", "http://oval.mitre.org/XMLSchema/oval-definitions-5")]
        "" [Xml.elem "check-content-ref" [("href", "oval-unix.xml")] "" []]
        ∈ children) :=
  ⟨(claim_C6 [] c3Rule [] [] [] [] rfl rfl (by simp) (by simp) rfl rfl).1 rfl,
   (claim_C6 [] c6Rule [] [] [] [] rfl rfl (by simp) (by simp) rfl rfl).2
     "oval-unix.xml" rfl (by decide)⟩

/-! Claim C10. -/

/-- C10: entity ids are derived from filesystem paths, never from the
    descriptor's content — a Profile's or Value's id is the file name
    without its extension, a Group's id is the name of the directory holding
    its group.yml, and a Rule named rule.yml takes its id from the rule
    directory while any other rule descriptor uses its file name without
    extension. -/
theorem claim_C10 :
    (∀ f doc p, Profile.from_yaml f (some doc) = .ok (some p) →
      p.id_ = (splitext (basename f)).1) ∧
    (∀ f doc v, Value.from_yaml f (some doc) = .ok (some v) →
      v.id_ = (splitext (basename f)).1) ∧
    (∀ f doc g, Group.from_yaml f (some doc) = .ok (some g) →
      g.id_ = basename (dirname f)) ∧
    (∀ cce f doc r, Rule.from_yaml cce f (some doc) = .ok (some r) →
      r.id_ = ruleIdOf f ∧
      (((splitext (basename f)).1 == "rule" &&
        (splitext (basename f)).2 == ".yml") = true →
        r.id_ = get_rule_dir_id f) ∧
      (((splitext (basename f)).1 == "rule" &&
        (splitext (basename f)).2 == ".yml") = false →
        r.id_ = (splitext (basename f)).1)) := by
  refine ⟨?_, ?_, ?_, ?_⟩
  · intro f doc p h
    simp only [Profile.from_yaml, required_key, popKey] at h
    repeat' split at h
    all_goals try exact (Except.noConfusion h)
    injection h with h1
    injection h1 with h2
    subst h2
    rfl
  · intro f doc v h
    simp only [Value.from_yaml, required_key, popKey] at h
    repeat' split at h
    all_goals try exact (Except.noConfusion h)
    injection h with h1
    injection h1 with h2
    subst h2
    rfl
  · intro f doc g h
    simp only [Group.from_yaml, required_key, popKey] at h
    repeat' split at h
    all_goals try exact (Except.noConfusion h)
    injection h with h1
    injection h1 with h2
    subst h2
    rfl
  · intro cce f doc r h
    have hid : r.id_ = ruleIdOf f := by
      simp only [Rule.from_yaml, required_key, popKey] at h
      repeat' split at h
      all_goals try exact (Except.noConfusion h)
      injection h with h1
      injection h1 with h2
      subst h2
      rfl
    refine ⟨hid, fun hc => ?_, fun hc => ?_⟩
    · rw [hid, ruleIdOf, if_pos hc]
    · rw [hid, ruleIdOf, if_neg (by rw [hc]; exact Bool.false_ne_true)]

/-- C10, witness: the claim applied at concrete descriptors — ids come from
    the paths, for both the plain and the rule-directory naming shapes. -/
theorem claim_C10_witness :
    ((splitext (basename "profiles/standard.profile")).1 = "standard") ∧
    (∃ g, Group.from_yaml "guide/services/group.yml"
        (some [("title", .str "T"), ("description", .str "D")]) =
      .ok (some g) ∧ g.id_ = basename (dirname "guide/services/group.yml")) ∧
    basename (dirname "guide/services/group.yml") = "services" ∧
    (∃ r, Rule.from_yaml (fun _ => true) "guide/sshd_disable_root/rule.yml"
        (some c2Doc) = .ok (some r) ∧
      r.id_ = get_rule_dir_id "guide/sshd_disable_root/rule.yml") ∧
    get_rule_dir_id "guide/sshd_disable_root/rule.yml" = "sshd_disable_root" := by
  refine ⟨by decide, ?_, by decide, ?_, by decide⟩
  · refine ⟨_, by rfl, ?_⟩
    exact claim_C10.2.2.1 "guide/services/group.yml"
      [("title", .str "T"), ("description", .str "D")] _ (by rfl)
  · refine ⟨_, by rfl, ?_⟩
    exact (claim_C10.2.2.2 (fun _ => true) "guide/sshd_disable_root/rule.yml"
      c2Doc _ (by rfl)).2.1 (by decide)

/-! Claim C8. -/

theorem classifyStep_ok (guide : String) (e : FsEntry) (st : DirScan)
    (hbne : st.benchmark_file.isSome = true → e.name ≠ "benchmark.yml")
    (hgne : st.group_file.isSome = true → e.name ≠ "group.yml") :
    ∃ st2, classifyStep guide e st = .ok st2 ∧
      (st2.benchmark_file.isSome = true ↔
        (st.benchmark_file.isSome = true ∨ e.name = "benchmark.yml")) ∧
      (st2.group_file.isSome = true ↔
        (st.group_file.isSome = true ∨ e.name = "group.yml")) := by
  simp only [classifyStep.eq_def]
  by_cases h1 : ((splitext e.name).2 == ".var") = true
  · rw [if_pos h1]
    have hne : e.name ≠ "benchmark.yml" := by
      intro he; rw [he] at h1; exact absurd h1 (by decide)
    have hne2 : e.name ≠ "group.yml" := by
      intro he; rw [he] at h1; exact absurd h1 (by decide)
    exact ⟨_, rfl, by simp [hne], by simp [hne2]⟩
  · rw [if_neg h1]
    by_cases h2 : (e.name == "benchmark.yml") = true
    · have he : e.name = "benchmark.yml" := by simpa using h2
      have hbf : st.benchmark_file.isSome = false := by
        cases hs : st.benchmark_file.isSome with
        | false => rfl
        | true => exact absurd he (hbne hs)
      rw [if_pos h2, hbf]
      simp only [Bool.false_eq_true, if_false]
      exact ⟨_, rfl, by simp [he], by simp [he]⟩
    · rw [if_neg h2]
      have hne : e.name ≠ "benchmark.yml" := by simpa using h2
      by_cases h3 : (e.name == "group.yml") = true
      · have he : e.name = "group.yml" := by simpa using h3
        have hgf : st.group_file.isSome = false := by
          cases hs : st.group_file.isSome with
          | false => rfl
          | true => exact absurd he (hgne hs)
        rw [if_pos h3, hgf]
        simp only [Bool.false_eq_true, if_false]
        exact ⟨_, rfl, by simp [hne], by simp [he]⟩
      · rw [if_neg h3]
        have hne2 : e.name ≠ "group.yml" := by simpa using h3
        by_cases h4 : ((splitext e.name).2 == ".rule") = true
        · rw [if_pos h4]
          exact ⟨_, rfl, by simp [hne], by simp [hne2]⟩
        · rw [if_neg h4]
          by_cases h5 : is_rule_dir e = true
          · rw [if_pos h5]
            exact ⟨_, rfl, by simp [hne], by simp [hne2]⟩
          · rw [if_neg h5]
            by_cases h6 : (e.name == "tests") = true
            · rw [if_pos h6]
              exact ⟨_, rfl, by simp [hne], by simp [hne2]⟩
            · rw [if_neg h6]
              cases e with
              | file n c => exact ⟨_, rfl, by simp_all, by simp_all⟩
              | dir n sub => exact ⟨_, rfl, by simp_all, by simp_all⟩

theorem classifyEntries_ok (guide : String) :
    ∀ (entries : List FsEntry) (st : DirScan),
    (entries.map FsEntry.name).Nodup →
    (st.benchmark_file.isSome = true →
      "benchmark.yml" ∉ entries.map FsEntry.name) →
    (st.group_file.isSome = true → "group.yml" ∉ entries.map FsEntry.name) →
    ∃ st', classifyEntries guide entries st = .ok st' ∧
      (st.benchmark_file.isSome = true ∨
        "benchmark.yml" ∈ entries.map FsEntry.name →
        st'.benchmark_file.isSome = true) ∧
      (st.group_file.isSome = true ∨ "group.yml" ∈ entries.map FsEntry.name →
        st'.group_file.isSome = true) := by
  intro entries
  induction entries with
  | nil =>
    intro st hnd hb hg
    exact ⟨st, rfl, by simpa using fun h => h, by simpa using fun h => h⟩
  | cons e rest ih =>
    intro st hnd hb hg
    simp only [List.map_cons, List.nodup_cons] at hnd
    obtain ⟨st2, hstep, hiffb, hiffg⟩ := classifyStep_ok guide e st
      (fun hs he => (hb hs) (by simp [he]))
      (fun hs he => (hg hs) (by simp [he]))
    rw [classifyEntries, hstep]
    have hinv1 : st2.benchmark_file.isSome = true →
        "benchmark.yml" ∉ rest.map FsEntry.name := by
      intro hs
      rcases hiffb.mp hs with hcase | hcase
      · exact fun hm => (hb hcase) (by simp [hm])
      · rw [← hcase]; exact hnd.1
    have hinv2 : st2.group_file.isSome = true →
        "group.yml" ∉ rest.map FsEntry.name := by
      intro hs
      rcases hiffg.mp hs with hcase | hcase
      · exact fun hm => (hg hcase) (by simp [hm])
      · rw [← hcase]; exact hnd.1
    obtain ⟨st', hcl, hbi, hgi⟩ := ih st2 hnd.2 hinv1 hinv2
    refine ⟨st', hcl, fun hc => ?_, fun hc => ?_⟩
    · rcases hc with hc | hc
      · exact hbi (Or.inl (hiffb.mpr (Or.inl hc)))
      · simp only [List.map_cons, List.mem_cons] at hc
        rcases hc with hc | hc
        · exact hbi (Or.inl (hiffb.mpr (Or.inr hc.symm)))
        · exact hbi (Or.inr hc)
    · rcases hc with hc | hc
      · exact hgi (Or.inl (hiffg.mpr (Or.inl hc)))
      · simp only [List.map_cons, List.mem_cons] at hc
        rcases hc with hc | hc
        · exact hgi (Or.inl (hiffg.mpr (Or.inr hc.symm)))
        · exact hgi (Or.inr hc)

/-- The message of the multiple-descriptors error. -/
def bothDescriptorsMsg (guide_directory : String) : String :=
  "A .benchmark file and a .group file were found in the same directory '"
    ++ guide_directory ++ "'"

/-- C8: a directory whose immediate entries include both a benchmark.yml
    and a group.yml fails with the multiple-descriptors error, after its
    entries are classified but before any recursion into subdirectories —
    for any recursion budget (including one that forbids all recursion) and
    regardless of what the subdirectories contain. -/
theorem claim_C8 :
    ∀ (productToCpe : List (String × List String))
      (is_cce_valid : String → Bool) (fuel : Nat) (action : String)
      (parentPlatform : Option YamlValue) (guide_directory : String)
      (entries : List FsEntry)
      (profiles_dir : Option (String × List FsEntry))
      (bash_remediation_fns : Xml) (env_yaml : Option Doc),
      (entries.map FsEntry.name).Nodup →
      "benchmark.yml" ∈ entries.map FsEntry.name →
      "group.yml" ∈ entries.map FsEntry.name →
      add_from_directory productToCpe is_cce_valid (fuel + 1) action
        parentPlatform guide_directory entries profiles_dir
        bash_remediation_fns env_yaml =
        .error (bothDescriptorsMsg guide_directory) := by
  intro productToCpe cce fuel action parentPlatform guide entries profiles
    bash env hnd hbm hgm
  obtain ⟨st', hcl, hbi, hgi⟩ := classifyEntries_ok guide entries DirScan.init
    hnd (by intro hs; exact absurd hs (by simp [DirScan.init]))
    (by intro hs; exact absurd hs (by simp [DirScan.init]))
  have hb : st'.benchmark_file.isSome = true := hbi (Or.inr hbm)
  have hg : st'.group_file.isSome = true := hgi (Or.inr hgm)
  obtain ⟨bf, hbf⟩ := Option.isSome_iff_exists.mp hb
  obtain ⟨gf, hgf⟩ := Option.isSome_iff_exists.mp hg
  rw [add_from_directory]
  simp only [hcl, load_benchmark_or_group.eq_def, hbf, hgf]
  rfl

/-- C8, witness: the claim applied at a concrete directory holding both
    descriptors (with fuel 1, so no recursion is even possible). -/
theorem claim_C8_witness :
    add_from_directory [] (fun _ => true) 1 "build" none "guide"
      [.file "benchmark.yml" (some []), .file "group.yml" (some [])]
      none (Xml.elem "fns" [] "" []) none =
      .error (bothDescriptorsMsg "guide") :=
  claim_C8 [] (fun _ => true) 0 "build" none "guide"
    [.file "benchmark.yml" (some []), .file "group.yml" (some [])]
    none (Xml.elem "fns" [] "" []) none (by decide) (by decide) (by decide)

end SSG
